import Mathlib

/-!
# Crazy Tank: the player tank `APawnTank` and the enemy turret `APawnTurret`

A shallow embedding of the gameplay logic in `Source/UE4/PawnTank.cpp` and
`Source/UE4/PawnTurret.cpp`: ammo bookkeeping, homing-target acquisition, locomotion, and the
turret's aim, fire and destruction checks.
Engine services (line traces, actor spawning, delegates, logging, mesh lookup, rotations, random
draws) are represented by explicit inputs and by a trace of emitted effects.
-/

namespace CrazyTank

/-! ## Machine integers and engine helpers -/

/-- Two-complement wrap of a mathematical integer into the range of the 32-bit C++ `int`. -/
def wrapInt32 (x : Int) : Int :=
  (x + 2147483648) % 4294967296 - 2147483648

/-- Engine helper `FMath::Clamp(X, Min, Max)`, i.e. `X < Min ? Min : (X < Max ? X : Max)`. -/
def Clamp (X Min Max : Int) : Int :=
  if X < Min then Min else if X < Max then X else Max

/-- Engine container operation `TArray::RemoveAtSwap(Index)` with a count of one: the element at
`Index` is removed and, when it was not the last one, the last element is moved into the hole.
An out-of-range index (an engine assertion) leaves the list as it is. -/
def RemoveAtSwap {α : Type} (l : List α) (Index : Nat) : List α :=
  if Index + 1 < l.length then
    match l.getLast? with
    | some x => (l.set Index x).dropLast
    | none => l
  else if Index + 1 = l.length then l.dropLast
  else l

/-! ## Data model -/

/-- An `AActor*` reference; references are compared by identity. -/
abbrev Actor := Nat

/-- Messages passed to `UE_LOG` by the tank. -/
inductive LogMsg where
  | traceResult (bTargetFound : Bool)
  | targetIs (target : Actor)
  | notEnoughAmmoForMoreTargets
  | noAmmoForHoming
  | noAmmoForProjectile
  | noTargetMesh
  | noHomingProjectileClass
  | targets (num : Nat)
deriving DecidableEq, Repr

/-- Observable engine calls made by the tank, in program order. -/
inductive Effect where
  /-- Call of `OnProjectileCountChanged.Broadcast(count)`. -/
  | projectileCountChanged (count : Int)
  /-- Call of `OnHomingProjectileCountChanged.Broadcast(count)`. -/
  | homingProjectileCountChanged (count : Int)
  /-- Call of `Super::Fire()`, the parent pawn spawning a regular projectile. -/
  | superFire
  /-- Call of `GetWorld()->SpawnActor<AProjectileBase>(HomingProjectileClass, ..)` followed by
  `SetOwner`. -/
  | spawnHomingProjectile
  /-- Call of `TempProjectile->HomingProjectile(target)` on the projectile spawned last. -/
  | homingProjectile (target : Actor)
  /-- Call of `HomingTargetMesh->SetRenderCustomDepth(bShouldDraw)`. -/
  | setRenderCustomDepth (mesh : Nat) (bShouldDraw : Bool)
  /-- Call of `UE_LOG` with the given message. -/
  | log (msg : LogMsg)
deriving DecidableEq, Repr

/-- What the tank reads from the engine about other actors. -/
structure World where
  /-- Result of `Actor->IsA(APawn::StaticClass())`. -/
  IsAPawn : Actor → Bool
  /-- The static mesh found by `DrawTargetOutline` under the root component of the target, if any. -/
  TargetMesh : Actor → Option Nat

/-- The fields of `APawnTank` read or written by the ammo and targeting logic. -/
structure TankState where
  ProjectileAmmoMax : Int
  HomingProjectileAmmoMax : Int
  ProjectileAmmoCurrent : Int
  HomingProjectileAmmoCurrent : Int
  /-- Whether `HomingProjectileClass` is set. -/
  HomingProjectileClass : Bool
  HomingTarget : List Actor
  bIsPlayerAlive : Bool
deriving DecidableEq, Repr

/-! ## Operations of `APawnTank` -/

/-- Embedding of `APawnTank::ProcessNewAmmo`: the `int` addition wraps, then the sum is clamped. -/
def ProcessNewAmmo (CurrentAmmo AddedAmount MaxAmmo : Int) : Int :=
  let CurrentAmmo := wrapInt32 (CurrentAmmo + AddedAmount)
  Clamp CurrentAmmo 0 MaxAmmo

/-- The ammo part of `APawnTank::BeginPlay`: both counters are reset to their maxima and both
delegates are notified. -/
def BeginPlay (s : TankState) : TankState × List Effect :=
  let s1 := { s with ProjectileAmmoCurrent := s.ProjectileAmmoMax }
  let s2 := { s1 with HomingProjectileAmmoCurrent := s1.HomingProjectileAmmoMax }
  (s2, [Effect.projectileCountChanged s2.ProjectileAmmoCurrent,
        Effect.homingProjectileCountChanged s2.HomingProjectileAmmoCurrent])

/-- Embedding of `APawnTank::AddAmmo`: a switch on `AmmoType` with cases 0, 1 and default. -/
def AddAmmo (s : TankState) (AmmoType Amount : Int) : TankState × List Effect :=
  if AmmoType = 0 then
    let s1 := { s with
      ProjectileAmmoCurrent := ProcessNewAmmo s.ProjectileAmmoCurrent Amount s.ProjectileAmmoMax }
    (s1, [Effect.projectileCountChanged s1.ProjectileAmmoCurrent])
  else if AmmoType = 1 then
    let s1 := { s with
      HomingProjectileAmmoCurrent :=
        ProcessNewAmmo s.HomingProjectileAmmoCurrent Amount s.HomingProjectileAmmoMax }
    (s1, [Effect.homingProjectileCountChanged s1.HomingProjectileAmmoCurrent])
  else
    (s, [])

/-- Embedding of `APawnTank::DrawTargetOutline`: without a target mesh it only logs. -/
def DrawTargetOutline (W : World) (Target : Actor) (bShouldDraw : Bool) : List Effect :=
  match W.TargetMesh Target with
  | none => [Effect.log LogMsg.noTargetMesh]
  | some mesh => [Effect.setRenderCustomDepth mesh bShouldDraw]

/-- The loop `for (index = 0; index != HomingTarget.Num(); index++) DrawTargetOutline(.., false)`
used when all targets are discarded. -/
def clearOutlines (W : World) : List Actor → List Effect
  | [] => []
  | t :: rest => DrawTargetOutline W t false ++ clearOutlines W rest

/-- Embedding of `APawnTank::TargetHomingProjectile`; `trace` is the outcome of the forward line trace
(`none` when nothing is hit), which is only cast when there is homing ammo. -/
def TargetHomingProjectile (W : World) (s : TankState) (trace : Option Actor) :
    TankState × List Effect :=
  if 0 < s.HomingProjectileAmmoCurrent then
    match trace with
    | none => (s, [Effect.log (LogMsg.traceResult false)])
    | some hit =>
      if W.IsAPawn hit = false then
        if s.HomingTarget.length ≠ 0 then
          ({ s with HomingTarget := [] },
            Effect.log (LogMsg.traceResult true) :: clearOutlines W s.HomingTarget)
        else
          (s, [Effect.log (LogMsg.traceResult true)])
      else if s.HomingProjectileAmmoCurrent ≤ (s.HomingTarget.length : Int) then
        (s, [Effect.log (LogMsg.traceResult true), Effect.log (LogMsg.targetIs hit),
             Effect.log LogMsg.notEnoughAmmoForMoreTargets])
      else if hit ∈ s.HomingTarget then
        (s, [Effect.log (LogMsg.traceResult true), Effect.log (LogMsg.targetIs hit)])
      else
        ({ s with HomingTarget := s.HomingTarget ++ [hit] },
          [Effect.log (LogMsg.traceResult true), Effect.log (LogMsg.targetIs hit)]
            ++ DrawTargetOutline W hit true)
  else
    (s, [Effect.log LogMsg.noAmmoForHoming])

/-- The state after one pass through the body of the firing loop at `index`. -/
def fireBodyState (s : TankState) (index : Nat) : TankState :=
  { s with
    HomingTarget := RemoveAtSwap s.HomingTarget index
    HomingProjectileAmmoCurrent :=
      ProcessNewAmmo s.HomingProjectileAmmoCurrent (-1) s.HomingProjectileAmmoMax }

/-- The engine calls of one pass through the body of the firing loop at `index`. -/
def fireBodyEffects (W : World) (s : TankState) (index : Nat) (target : Actor) : List Effect :=
  [Effect.spawnHomingProjectile] ++ DrawTargetOutline W target false ++
    [Effect.homingProjectile target,
     Effect.homingProjectileCountChanged (fireBodyState s index).HomingProjectileAmmoCurrent]

/-- The loop `for (index = ..; index < HomingTarget.Num(); index++) { ... RemoveAtSwap(index) ... }`
of `APawnTank::FireHomingProjectile`, started at `index`. -/
def fireLoop (W : World) (index : Nat) (s : TankState) : TankState × List Effect :=
  if h : index < s.HomingTarget.length then
    let target := s.HomingTarget.get ⟨index, h⟩
    let r := fireLoop W (index + 1) (fireBodyState s index)
    (r.1, fireBodyEffects W s index target ++ r.2)
  else
    (s, [])
termination_by s.HomingTarget.length - index
decreasing_by
  have hlen : (RemoveAtSwap s.HomingTarget index).length = s.HomingTarget.length - 1 := by
    unfold RemoveAtSwap
    split
    · cases hl : s.HomingTarget.getLast? with
      | none => simp [List.getLast?_eq_none_iff] at hl; simp [hl] at h
      | some x => simp
    · split
      · simp
      · omega
  simp only [fireBodyState]
  rw [hlen]
  omega

/-- Embedding of `APawnTank::FireHomingProjectile`. -/
def FireHomingProjectile (W : World) (s : TankState) : TankState × List Effect :=
  if s.HomingTarget.length = 0 then
    (s, [])
  else if s.HomingProjectileClass then
    let r := fireLoop W 0 s
    (r.1, r.2 ++ [Effect.log (LogMsg.targets r.1.HomingTarget.length)])
  else
    ({ s with HomingTarget := [] },
      clearOutlines W s.HomingTarget ++ [Effect.log LogMsg.noHomingProjectileClass])

/-- Embedding of `APawnTank::Fire`. -/
def Fire (s : TankState) : TankState × List Effect :=
  if 0 < s.ProjectileAmmoCurrent then
    let s1 := { s with
      ProjectileAmmoCurrent := ProcessNewAmmo s.ProjectileAmmoCurrent (-1) s.ProjectileAmmoMax }
    (s1, [Effect.superFire, Effect.projectileCountChanged s1.ProjectileAmmoCurrent])
  else
    (s, [Effect.log LogMsg.noAmmoForProjectile])

/-- One call made on the tank by input bindings or pick-ups. -/
inductive TankOp where
  | addAmmo (AmmoType Amount : Int)
  | fire
  | targetHomingProjectile (trace : Option Actor)
  | fireHomingProjectile
deriving DecidableEq, Repr

/-- Performing one call. -/
def TankOp.run (W : World) (s : TankState) : TankOp → TankState × List Effect
  | TankOp.addAmmo t n => AddAmmo s t n
  | TankOp.fire => Fire s
  | TankOp.targetHomingProjectile trace => TargetHomingProjectile W s trace
  | TankOp.fireHomingProjectile => FireHomingProjectile W s

/-- Performing a finite sequence of calls, collecting the effects in order. -/
def runOps (W : World) : TankState → List TankOp → TankState × List Effect
  | s, [] => (s, [])
  | s, op :: rest =>
    let r1 := TankOp.run W s op
    let r2 := runOps W r1.1 rest
    (r2.1, r1.2 ++ r2.2)

/-- A freshly constructed tank before `BeginPlay`: the target array is empty and the player is
alive; the ammo counters have no initialiser, so they hold arbitrary values `junk1`, `junk2`. -/
def constructed (projectileMax homingMax : Int) (homingClass : Bool) (junk1 junk2 : Int) :
    TankState :=
  { ProjectileAmmoMax := projectileMax
    HomingProjectileAmmoMax := homingMax
    ProjectileAmmoCurrent := junk1
    HomingProjectileAmmoCurrent := junk2
    HomingProjectileClass := homingClass
    HomingTarget := []
    bIsPlayerAlive := true }

/-- A world in which every actor is a pawn whose outline mesh is the actor itself. -/
def pawnWorld : World := { IsAPawn := fun _ => true, TargetMesh := fun a => some a }

/-- Both ammo counters lie between zero and their maxima. -/
def AmmoInRange (s : TankState) : Prop :=
  0 ≤ s.ProjectileAmmoCurrent ∧ s.ProjectileAmmoCurrent ≤ s.ProjectileAmmoMax ∧
  0 ≤ s.HomingProjectileAmmoCurrent ∧ s.HomingProjectileAmmoCurrent ≤ s.HomingProjectileAmmoMax

/-- A sample session: two targets are acquired, homing ammo is taken away, a regular pick-up
overflows the `int` sum, an unknown ammo type is passed, and both weapons are fired. -/
def sampleOps : List TankOp :=
  [TankOp.targetHomingProjectile (some 7), TankOp.targetHomingProjectile (some 8),
   TankOp.fire, TankOp.addAmmo 1 (-3), TankOp.targetHomingProjectile (some 7),
   TankOp.fireHomingProjectile, TankOp.addAmmo 0 2147483647, TankOp.addAmmo 5 1,
   TankOp.targetHomingProjectile none, TankOp.fireHomingProjectile]

/-- The clamped sum in the words of the specification: `0` when `cur + add < 0`, `max` when
`cur + add > max`, and `cur + add` otherwise, over the mathematical integers. -/
def clampedSum (cur add max : Int) : Int :=
  if cur + add < 0 then 0 else if cur + add > max then max else cur + add

/-- A tank after `BeginPlay` with the default maxima (6 regular, 4 homing projectiles), a homing
projectile class set, and the given counters and targets. -/
def tankWith (projectileAmmo homingAmmo : Int) (targets : List Actor) : TankState :=
  { ProjectileAmmoMax := 6
    HomingProjectileAmmoMax := 4
    ProjectileAmmoCurrent := projectileAmmo
    HomingProjectileAmmoCurrent := homingAmmo
    HomingProjectileClass := true
    HomingTarget := targets
    bIsPlayerAlive := true }

/-- The call does not take homing ammo away: an `AddAmmo(1, N)` has `N ≥ 0` and a sum
`HomingProjectileAmmoCurrent + N` that fits an `int`; every other call qualifies. -/
def TankOp.keepsHomingAmmo (s : TankState) : TankOp → Prop
  | TankOp.addAmmo t n => t = 1 → 0 ≤ n ∧ s.HomingProjectileAmmoCurrent + n ≤ 2147483647
  | _ => True

/-- No call of the sequence, performed from `s`, takes homing ammo away. -/
def keepHomingAmmo (W : World) : TankState → List TankOp → Prop
  | _, [] => True
  | s, op :: rest => op.keepsHomingAmmo s ∧ keepHomingAmmo W (TankOp.run W s op).1 rest

/-- The target cap together with the facts that keep it stable. -/
def TargetCap (s : TankState) : Prop :=
  (s.HomingTarget.length : Int) ≤ s.HomingProjectileAmmoCurrent ∧
  s.HomingProjectileAmmoCurrent ≤ s.HomingProjectileAmmoMax ∧
  s.HomingProjectileAmmoMax ≤ 2147483647

/-- A sample session that only adds ammo: targets are acquired, ammo of both kinds is picked up
and both weapons are fired. -/
def pickUpOps : List TankOp :=
  [TankOp.targetHomingProjectile (some 7), TankOp.targetHomingProjectile (some 8),
   TankOp.targetHomingProjectile (some 7), TankOp.fire, TankOp.addAmmo 0 (-9),
   TankOp.fireHomingProjectile, TankOp.addAmmo 1 2, TankOp.targetHomingProjectile (some 9),
   TankOp.addAmmo 7 (-1)]

/-- The acceptance rule in the words of the specification: there is homing ammo, the trace hit
something, the hit actor is a pawn, the list is strictly shorter than the homing ammo count, and
the hit actor is not yet in the list. -/
def acceptanceRule (W : World) (s : TankState) (trace : Option Actor) : Prop :=
  0 < s.HomingProjectileAmmoCurrent ∧
  ∃ hit, trace = some hit ∧ W.IsAPawn hit = true ∧
    (s.HomingTarget.length : Int) < s.HomingProjectileAmmoCurrent ∧ hit ∉ s.HomingTarget

/-- The targeting line trace of a `TargetHomingProjectile` call made in state `s` hits `hit`:
the trace is cast, which needs homing ammo, and it reports `hit`. -/
def traceHits (s : TankState) (trace : Option Actor) (hit : Actor) : Prop :=
  0 < s.HomingProjectileAmmoCurrent ∧ trace = some hit

/-- A world in which actors below 100 are pawns, the others are not, and every actor has an
outline mesh. -/
def mixedWorld : World := { IsAPawn := fun a => decide (a < 100), TargetMesh := fun a => some a }

/-- Whether an effect is the spawning of a homing projectile or a notification on
`OnHomingProjectileCountChanged`. -/
def Effect.isShotEvent : Effect → Bool
  | Effect.spawnHomingProjectile => true
  | Effect.homingProjectileCountChanged _ => true
  | _ => false

/-- The homing spawns and homing-count notifications of a trace, in order. -/
def shotEvents (effects : List Effect) : List Effect :=
  effects.filter Effect.isShotEvent

/-- The number of homing projectiles spawned in a trace. -/
def spawnCount (effects : List Effect) : Nat :=
  effects.count Effect.spawnHomingProjectile

/-- The value of the homing counter after `shots` decrements, each clamped by the code. -/
def ammoAfterShots (cur max : Int) : Nat → Int
  | 0 => cur
  | shots + 1 => ammoAfterShots (ProcessNewAmmo cur (-1) max) max shots

/-- The notification pattern of the specification for `shots` homing projectiles: every spawn is
followed by one `OnHomingProjectileCountChanged` carrying the count after that decrement. -/
def shotsSpec (cur max : Int) : Nat → List Effect
  | 0 => []
  | shots + 1 =>
    Effect.spawnHomingProjectile
      :: Effect.homingProjectileCountChanged (ProcessNewAmmo cur (-1) max)
      :: shotsSpec (ProcessNewAmmo cur (-1) max) max shots

/-! ## The enemy turret `APawnTurret` and the life cycle of the tank -/

/-- Engine calls made by the pawns outside the ammo logic, in program order; `V` is the type of
world locations. -/
inductive PawnEffect (V : Type) where
  /-- Call of `Super::HandleDestruction()`, the parent pawn playing its effects. -/
  | superHandleDestruction
  /-- Call of `SetActorHiddenInGame(bNewHidden)`. -/
  | setActorHiddenInGame (bNewHidden : Bool)
  /-- Call of `SetActorTickEnabled(bEnabled)`. -/
  | setActorTickEnabled (bEnabled : Bool)
  /-- Call of the parent pawn `Fire()` by the turret. -/
  | fire
  /-- Call of the parent pawn `RotateTurret(LookAtTarget)`. -/
  | rotateTurret (LookAtTarget : V)
  /-- Call of `GetWorld()->SpawnActor<APickUpBase>(PickUp, SpawnLocation, ..)`. -/
  | spawnPickUp (PickUp : Nat) (SpawnLocation : V)
  /-- Call of `UE_LOG` reporting that no pick-up class is set. -/
  | logNoPickUpClass
  /-- Call of `Destroy()`. -/
  | destroy
  /-- An array access outside `0 .. Num - 1`, which the engine answers with a failed check. -/
  | arrayIndexOutOfBounds
deriving DecidableEq, Repr

/-- Engine helper `FMath::RandHelper(A)`, i.e. `A > 0 ? Min(TruncToInt(FRand() * A), A - 1) : 0`;
`u` is the value drawn by `FRand()`, a number between 0 and 1. -/
def RandHelper (A : Int) (u : ℚ) : Int :=
  if 0 < A then min ⌊u * (A : ℚ)⌋ (A - 1) else 0

/-- Engine helper `FMath::RandRange(Min, Max)`, i.e. `Min + RandHelper((Max - Min) + 1)`. -/
def RandRange (Min Max : Int) (u : ℚ) : Int :=
  Min + RandHelper ((Max - Min) + 1) u

/-- Engine array access `Array[Index]` with an `int32` index. -/
def TArrayGet {α : Type} (l : List α) (Index : Int) : Option α :=
  if 0 ≤ Index then l[Index.toNat]? else none

/-- Embedding of `APawnTank::GetIsPlayerAlive`. -/
def GetIsPlayerAlive (s : TankState) : Bool :=
  s.bIsPlayerAlive

/-- Embedding of `APawnTank::HandleDestruction`: the player is marked dead, the actor is hidden
and its tick is switched off. -/
def HandleDestruction (V : Type) (s : TankState) : TankState × List (PawnEffect V) :=
  ({ s with bIsPlayerAlive := false },
    [PawnEffect.superHandleDestruction, PawnEffect.setActorHiddenInGame true,
     PawnEffect.setActorTickEnabled false])

/-- The fields of `APawnTurret` read by its logic; `F` is the type of `float` values. -/
structure TurretState (F : Type) where
  FireRange : F
  /-- The entries of `PickUpClass`, as class identifiers. -/
  PickUpClass : List Nat

/-- What the turret reads from the engine: `FVector::Dist`, the location of the player pawn
(read only when `PlayerPawn` is set) and its own location. -/
structure TurretWorld (V F : Type) where
  Dist : V → V → F
  PlayerLocation : V
  TurretLocation : V

/-- Embedding of `APawnTurret::ReturnDistanceToPlayer`; `PlayerPawn` is the tank the pointer
refers to, `none` for a null pointer. -/
def APawnTurret.ReturnDistanceToPlayer {V F : Type} [Zero F] (E : TurretWorld V F)
    (PlayerPawn : Option TankState) : F :=
  match PlayerPawn with
  | none => 0
  | some _ => E.Dist E.PlayerLocation E.TurretLocation

/-- Embedding of `APawnTurret::Tick`: returns at once when `!PlayerPawn` or
`ReturnDistanceToPlayer() > FireRange`, and otherwise aims at the player. -/
def APawnTurret.Tick {V F : Type} [Zero F] [LT F] [∀ a b : F, Decidable (a < b)]
    (E : TurretWorld V F) (t : TurretState F) (PlayerPawn : Option TankState) :
    List (PawnEffect V) :=
  if PlayerPawn.isNone ∨ APawnTurret.ReturnDistanceToPlayer E PlayerPawn > t.FireRange then
    []
  else
    [PawnEffect.rotateTurret E.PlayerLocation]

/-- Embedding of `APawnTurret::CheckFireCondition`, the callback of the fire-rate timer. -/
def APawnTurret.CheckFireCondition {V F : Type} [Zero F] [LE F] [∀ a b : F, Decidable (a ≤ b)]
    (E : TurretWorld V F) (t : TurretState F) (PlayerPawn : Option TankState) :
    List (PawnEffect V) :=
  match PlayerPawn with
  | none => [PawnEffect.setActorTickEnabled false]
  | some player =>
    if GetIsPlayerAlive player = false then
      [PawnEffect.setActorTickEnabled false]
    else if APawnTurret.ReturnDistanceToPlayer E (some player) ≤ t.FireRange then
      [PawnEffect.fire]
    else
      []

/-- Embedding of `APawnTurret::HandleDestruction`; `u1` and `u2` are the values drawn by the two
calls of `FMath::RandRange`. -/
def APawnTurret.HandleDestruction {V F : Type} (E : TurretWorld V F) (t : TurretState F)
    (u1 u2 : ℚ) : List (PawnEffect V) :=
  let SpawnPickUp := RandRange 0 10 u1
  if 5 ≤ SpawnPickUp then
    if t.PickUpClass.length ≠ 0 then
      let RandomIndex := RandRange 0 ((t.PickUpClass.length : Int) - 1) u2
      match TArrayGet t.PickUpClass RandomIndex with
      | some PickUp =>
        [PawnEffect.superHandleDestruction, PawnEffect.spawnPickUp PickUp E.TurretLocation,
         PawnEffect.destroy]
      | none => [PawnEffect.superHandleDestruction, PawnEffect.arrayIndexOutOfBounds]
    else
      [PawnEffect.superHandleDestruction, PawnEffect.logNoPickUpClass]
  else
    [PawnEffect.superHandleDestruction, PawnEffect.destroy]

/-- A turret with the default fire range of 500 and two pick-up classes. -/
def sampleTurret : TurretState Int := { FireRange := 500, PickUpClass := [11, 12] }

/-- A one-dimensional world: the player stands at `player`, the turret at 0, and the distance
is the absolute difference. -/
def lineWorld (player : Int) : TurretWorld Int Int :=
  { Dist := fun a b => |a - b|, PlayerLocation := player, TurretLocation := 0 }

/-! ## Locomotion of the tank: `Tick`, `Rotate`, `Move` -/

/-- An `FVector`; `float` components are taken as exact rationals. -/
structure FVector where
  X : ℚ
  Y : ℚ
  Z : ℚ
deriving DecidableEq, Repr

/-- The constant `FVector::ZeroVector`. -/
def FVector.ZeroVector : FVector := { X := 0, Y := 0, Z := 0 }

/-- The constant `FVector::UpVector`. -/
def FVector.UpVector : FVector := { X := 0, Y := 0, Z := 1 }

/-- Product `V * Scale` of an `FVector` with a `float`. -/
def FVector.scale (v : FVector) (c : ℚ) : FVector :=
  { X := v.X * c, Y := v.Y * c, Z := v.Z * c }

/-- Product `Scale * V` of a `float` with an `FVector`. -/
def FVector.scaleLeft (c : ℚ) (v : FVector) : FVector :=
  { X := c * v.X, Y := c * v.Y, Z := c * v.Z }

/-- The flags of the `ParticleTrail` component read and written by `Rotate`. -/
structure TrailFlags where
  bWasDeactivated : Bool
  bWasActive : Bool
  bSuppressSpawning : Bool
deriving DecidableEq, Repr

/-- Engine services used by the locomotion code; `R` is the type of component orientations and
`Q` the type of `FQuat` rotations. -/
structure MoveEngine (R Q : Type) where
  /-- Orientation of a component after `AddLocalRotation(DeltaRotation, true)`. -/
  AddLocalRotation : R → Q → R
  /-- Product `Quat * Scale` of an `FQuat` with a `float`. -/
  QuatScale : Q → ℚ → Q
  /-- Result of `UKismetMathLibrary::MakeRotFromZX(Z, X)`. -/
  MakeRotFromZX : FVector → FVector → R
  /-- Result of `GetForwardVector()` for a component with the given orientation. -/
  GetForwardVector : R → FVector
  /-- Flags of the particle component after `Activate(true)`. -/
  Activate : TrailFlags → TrailFlags
  /-- Flags of the particle component after `Deactivate()`. -/
  Deactivate : TrailFlags → TrailFlags

/-- The fields of `APawnTank` and of its components used by the locomotion code. -/
structure MotionState (R Q : Type) where
  MoveDirection : FVector
  RotationDirection : Q
  CounterRotation : Q
  MoveSpeed : ℚ
  TankGravity : ℚ
  DragOnGround : ℚ
  bIsGrounded : Bool
  /-- Orientation of the body component `BaseMesh`. -/
  BaseMesh : R
  /-- Orientation of the turret component `TurretMesh`. -/
  TurretMesh : R
  ParticleTrail : TrailFlags

/-- Physics calls made by `Move` on the capsule component. -/
inductive MoveEffect where
  /-- Call of `CapsuleComp->SetLinearDamping(InDamping)`. -/
  | setLinearDamping (InDamping : ℚ)
  /-- Call of `CapsuleComp->AddForce(Force)`. -/
  | addForce (Force : FVector)
deriving DecidableEq, Repr

/-- Embedding of `APawnTank::CalculateMoveInput`; `DeltaTimeSeconds` is read from the world. -/
def CalculateMoveInput {R Q : Type} (E : MoveEngine R Q) (m : MotionState R Q)
    (value DeltaTimeSeconds : ℚ) : MotionState R Q :=
  { m with
    MoveDirection :=
      ((FVector.scaleLeft value (E.GetForwardVector m.BaseMesh)).scale m.MoveSpeed).scale
        DeltaTimeSeconds }

/-- Embedding of `APawnTank::Rotate`. -/
def Rotate {R Q : Type} (E : MoveEngine R Q) (m : MotionState R Q) : MotionState R Q :=
  if m.MoveDirection ≠ FVector.ZeroVector ∧ m.bIsGrounded = true then
    let m1 :=
      if m.ParticleTrail.bWasDeactivated = true ∧ m.ParticleTrail.bWasActive = false then
        { m with ParticleTrail := E.Activate m.ParticleTrail }
      else m
    if m1.MoveDirection.X > 0 then
      { m1 with
        BaseMesh := E.AddLocalRotation m1.BaseMesh m1.RotationDirection
        TurretMesh := E.AddLocalRotation m1.TurretMesh m1.CounterRotation }
    else
      { m1 with
        BaseMesh := E.AddLocalRotation m1.BaseMesh (E.QuatScale m1.RotationDirection (-1))
        TurretMesh := E.AddLocalRotation m1.TurretMesh (E.QuatScale m1.CounterRotation (-1)) }
  else
    if m.ParticleTrail.bWasDeactivated = false then
      { m with
        ParticleTrail := E.Deactivate { m.ParticleTrail with bSuppressSpawning := true } }
    else m

/-- Embedding of `APawnTank::Move`; `Hit` is the outcome of the downward line trace, the impact
normal when the trace hits and `none` when it does not. -/
def Move {R Q : Type} (E : MoveEngine R Q) (m : MotionState R Q) (Hit : Option FVector) :
    MotionState R Q × List MoveEffect :=
  let m1 := { m with bIsGrounded := false }
  let m2 :=
    match Hit with
    | some ImpactNormal =>
      { m1 with
        bIsGrounded := true
        BaseMesh := E.MakeRotFromZX ImpactNormal (E.GetForwardVector m1.BaseMesh) }
    | none => m1
  if m2.bIsGrounded = true then
    (m2, [MoveEffect.setLinearDamping m2.DragOnGround,
          MoveEffect.addForce (m2.MoveDirection.scale 70000)])
  else
    (m2, [MoveEffect.setLinearDamping (1 / 10),
          MoveEffect.addForce ((FVector.UpVector.scale (-m2.TankGravity)).scale 20000)])

/-- Embedding of `APawnTank::Tick`: `Rotate()` and then `Move()`. -/
def Tick {R Q : Type} (E : MoveEngine R Q) (m : MotionState R Q) (Hit : Option FVector) :
    MotionState R Q × List MoveEffect :=
  Move E (Rotate E m) Hit

/-- A call made on the tank by the engine or by other actors during play. -/
inductive TankCall where
  | op (o : TankOp)
  | tick (Hit : Option FVector)
  | beginPlay
  | handleDestruction
deriving DecidableEq, Repr

/-- Performing one call on a tank made of its ammo and targeting state and its motion state. -/
def TankCall.run {R Q : Type} (W : World) (E : MoveEngine R Q) :
    TankState × MotionState R Q → TankCall → TankState × MotionState R Q
  | (s, m), TankCall.op o => ((TankOp.run W s o).1, m)
  | (s, m), TankCall.tick Hit => (s, (Tick E m Hit).1)
  | (s, m), TankCall.beginPlay => ((BeginPlay s).1, m)
  | (s, m), TankCall.handleDestruction => ((HandleDestruction Unit s).1, m)

/-- Performing a finite sequence of calls. -/
def runCalls {R Q : Type} (W : World) (E : MoveEngine R Q) :
    TankState × MotionState R Q → List TankCall → TankState × MotionState R Q
  | x, [] => x
  | x, c :: rest => runCalls W E (TankCall.run W E x c) rest

/-- An engine with yaw-only orientations, in degrees, in which the body currently faces along
`forward` and aligning to the ground gives yaw 0. The product `Quat * Scale` multiplies all four
components of the quaternion, and a quaternion and its non-zero real multiples (the code only
scales by -1) turn a component in exactly the same way, so scaling leaves the yaw delta as it
is. -/
def yawEngine (forward : FVector) : MoveEngine ℚ ℚ :=
  { AddLocalRotation := fun r q => r + q
    QuatScale := fun q _ => q
    MakeRotFromZX := fun _ _ => 0
    GetForwardVector := fun _ => forward
    Activate := fun f => { f with bWasDeactivated := false, bWasActive := true }
    Deactivate := fun f => { f with bWasDeactivated := true, bWasActive := false } }

/-- A grounded tank in the yaw-only engine: move speed 100, steering 5 degrees per tick with the
turret countering by -5, body and turret at yaw 0, driving along `moveDirection`. -/
def drivingTank (moveDirection : FVector) : MotionState ℚ ℚ :=
  { MoveDirection := moveDirection
    RotationDirection := 5
    CounterRotation := -5
    MoveSpeed := 100
    TankGravity := 10
    DragOnGround := 3 / 2
    bIsGrounded := true
    BaseMesh := 0
    TurretMesh := 0
    ParticleTrail := { bWasDeactivated := true, bWasActive := false, bSuppressSpawning := false } }

/-- The targets at which homing projectiles were aimed in a trace, in order. -/
def firedTargets : List Effect → List Actor
  | [] => []
  | Effect.homingProjectile target :: rest => target :: firedTargets rest
  | _ :: rest => firedTargets rest

/-- A world in which every actor is a pawn and no actor has an outline mesh. -/
def bareWorld : World := { IsAPawn := fun _ => true, TargetMesh := fun _ => none }

/-- The render-custom-depth flag of every mesh after the `SetRenderCustomDepth` calls of a trace
have been performed in order, starting from the flags `depth`. -/
def renderCustomDepthAfter : List Effect → (Nat → Bool) → Nat → Bool
  | [], depth => depth
  | Effect.setRenderCustomDepth mesh bShouldDraw :: rest, depth =>
    renderCustomDepthAfter rest (fun k => if k = mesh then bShouldDraw else depth k)
  | _ :: rest, depth => renderCustomDepthAfter rest depth

/-- Whether the outline of an actor is drawn: the actor has a target mesh and that mesh renders
custom depth. -/
def outlined (W : World) (depth : Nat → Bool) (a : Actor) : Bool :=
  match W.TargetMesh a with
  | some mesh => depth mesh
  | none => false

/-! ## Helper lemmas -/

theorem wrapInt32_of_inRange (x : Int) (h1 : -2147483648 ≤ x) (h2 : x ≤ 2147483647) :
    wrapInt32 x = x := by
  unfold wrapInt32
  omega

theorem Clamp_zero_range (X Max : Int) (h : 0 ≤ Max) :
    0 ≤ Clamp X 0 Max ∧ Clamp X 0 Max ≤ Max := by
  unfold Clamp
  split_ifs <;> omega

theorem ProcessNewAmmo_range (cur add max : Int) (h : 0 ≤ max) :
    0 ≤ ProcessNewAmmo cur add max ∧ ProcessNewAmmo cur add max ≤ max := by
  unfold ProcessNewAmmo
  exact Clamp_zero_range _ _ h

theorem ProcessNewAmmo_of_noOverflow (cur add max : Int)
    (h1 : -2147483648 ≤ cur + add) (h2 : cur + add ≤ 2147483647) :
    ProcessNewAmmo cur add max = Clamp (cur + add) 0 max := by
  unfold ProcessNewAmmo
  simp only [wrapInt32_of_inRange _ h1 h2]

theorem ProcessNewAmmo_decrement (cur max : Int) (h0 : 0 < cur) (h1 : cur ≤ max)
    (h2 : max ≤ 2147483647) : ProcessNewAmmo cur (-1) max = cur - 1 := by
  rw [ProcessNewAmmo_of_noOverflow _ _ _ (by omega) (by omega)]
  unfold Clamp
  split_ifs <;> omega

theorem RemoveAtSwap_length {α : Type} (l : List α) (i : Nat) (h : i < l.length) :
    (RemoveAtSwap l i).length = l.length - 1 := by
  unfold RemoveAtSwap
  split
  · cases hl : l.getLast? with
    | none => simp [List.getLast?_eq_none_iff] at hl; simp [hl] at h
    | some x => simp
  · split
    · simp
    · omega

theorem RemoveAtSwap_concat {α : Type} (a : List α) (x : α) (i : Nat) :
    RemoveAtSwap (a ++ [x]) i =
      if i < a.length then a.set i x else if i = a.length then a else a ++ [x] := by
  unfold RemoveAtSwap
  by_cases h : i < a.length
  · simp [h, List.set_append]
  · by_cases h2 : i = a.length
    · simp [h2]
    · have h3 : ¬ (i + 1 = a.length + 1) := by omega
      simp [h, h2, h3]

theorem RemoveAtSwap_nodup {α : Type} (l : List α) (i : Nat) (h : l.Nodup) :
    (RemoveAtSwap l i).Nodup := by
  induction l using List.reverseRecOn with
  | nil => simp [RemoveAtSwap]
  | append_singleton a x _ =>
    have hx : x ∉ a := by
      intro hmem
      have := List.nodup_append.mp h
      exact this.2.2 hmem (by simp)
    have ha : a.Nodup := (List.nodup_append.mp h).1
    rw [RemoveAtSwap_concat]
    split_ifs
    · exact ha.set hx
    · exact ha
    · exact h

theorem fireLoop_frame (W : World) (index : Nat) (s : TankState) :
    (fireLoop W index s).1.ProjectileAmmoMax = s.ProjectileAmmoMax ∧
    (fireLoop W index s).1.HomingProjectileAmmoMax = s.HomingProjectileAmmoMax ∧
    (fireLoop W index s).1.ProjectileAmmoCurrent = s.ProjectileAmmoCurrent ∧
    (fireLoop W index s).1.HomingProjectileClass = s.HomingProjectileClass ∧
    (fireLoop W index s).1.bIsPlayerAlive = s.bIsPlayerAlive := by
  induction index, s using fireLoop.induct W with
  | case1 index s h ih =>
    rw [fireLoop]
    simp only [h, dite_true]
    simpa [fireBodyState] using ih
  | case2 index s h =>
    rw [fireLoop]
    simp [h]

theorem fireLoop_ammo_range (W : World) (index : Nat) (s : TankState)
    (hmax : 0 ≤ s.HomingProjectileAmmoMax)
    (h0 : 0 ≤ s.HomingProjectileAmmoCurrent)
    (h1 : s.HomingProjectileAmmoCurrent ≤ s.HomingProjectileAmmoMax) :
    0 ≤ (fireLoop W index s).1.HomingProjectileAmmoCurrent ∧
    (fireLoop W index s).1.HomingProjectileAmmoCurrent ≤ s.HomingProjectileAmmoMax := by
  induction index, s using fireLoop.induct W with
  | case1 index s h ih =>
    rw [fireLoop]
    simp only [h, dite_true]
    have hr := ProcessNewAmmo_range s.HomingProjectileAmmoCurrent (-1) _ hmax
    exact ih hmax hr.1 hr.2
  | case2 index s h =>
    rw [fireLoop]
    simp [h, h0, h1]

theorem fireLoop_nodup (W : World) (index : Nat) (s : TankState) (h : s.HomingTarget.Nodup) :
    (fireLoop W index s).1.HomingTarget.Nodup := by
  induction index, s using fireLoop.induct W with
  | case1 index s hlt ih =>
    rw [fireLoop]
    simp only [hlt, dite_true]
    exact ih (RemoveAtSwap_nodup _ _ h)
  | case2 index s hlt =>
    rw [fireLoop]
    simpa [hlt] using h

theorem fireLoop_cap (W : World) (index : Nat) (s : TankState)
    (hmax : s.HomingProjectileAmmoMax ≤ 2147483647)
    (h1 : s.HomingProjectileAmmoCurrent ≤ s.HomingProjectileAmmoMax)
    (hcap : (s.HomingTarget.length : Int) ≤ s.HomingProjectileAmmoCurrent) :
    ((fireLoop W index s).1.HomingTarget.length : Int) ≤
        (fireLoop W index s).1.HomingProjectileAmmoCurrent ∧
      (fireLoop W index s).1.HomingProjectileAmmoCurrent ≤ s.HomingProjectileAmmoMax := by
  induction index, s using fireLoop.induct W with
  | case1 index s hlt ih =>
    rw [fireLoop]
    simp only [hlt, dite_true]
    have hpos : 0 < s.HomingProjectileAmmoCurrent := by omega
    have hdec := ProcessNewAmmo_decrement _ _ hpos h1 hmax
    have hlen := RemoveAtSwap_length s.HomingTarget index hlt
    apply ih hmax
    · simp only [fireBodyState, hdec]; omega
    · simp only [fireBodyState, hdec, hlen]; omega
  | case2 index s hlt =>
    rw [fireLoop]
    simp [hlt, h1, hcap]

theorem TargetHomingProjectile_frame (W : World) (s : TankState) (trace : Option Actor) :
    (TargetHomingProjectile W s trace).1.ProjectileAmmoMax = s.ProjectileAmmoMax ∧
    (TargetHomingProjectile W s trace).1.HomingProjectileAmmoMax = s.HomingProjectileAmmoMax ∧
    (TargetHomingProjectile W s trace).1.ProjectileAmmoCurrent = s.ProjectileAmmoCurrent ∧
    (TargetHomingProjectile W s trace).1.HomingProjectileAmmoCurrent
      = s.HomingProjectileAmmoCurrent ∧
    (TargetHomingProjectile W s trace).1.HomingProjectileClass = s.HomingProjectileClass ∧
    (TargetHomingProjectile W s trace).1.bIsPlayerAlive = s.bIsPlayerAlive := by
  unfold TargetHomingProjectile
  repeat' split
  all_goals simp

theorem fireLoop_ammo_zero (W : World) (index : Nat) (s : TankState)
    (hmax : 0 ≤ s.HomingProjectileAmmoMax) (h0 : s.HomingProjectileAmmoCurrent = 0) :
    (fireLoop W index s).1.HomingProjectileAmmoCurrent = 0 := by
  induction index, s using fireLoop.induct W with
  | case1 index s h ih =>
    rw [fireLoop]
    simp only [h, dite_true]
    apply ih hmax
    simp only [fireBodyState, h0, ProcessNewAmmo, wrapInt32, Clamp]
    split_ifs <;> omega
  | case2 index s h =>
    rw [fireLoop]
    simp [h, h0]

theorem FireHomingProjectile_frame (W : World) (s : TankState) :
    (FireHomingProjectile W s).1.ProjectileAmmoMax = s.ProjectileAmmoMax ∧
    (FireHomingProjectile W s).1.HomingProjectileAmmoMax = s.HomingProjectileAmmoMax ∧
    (FireHomingProjectile W s).1.ProjectileAmmoCurrent = s.ProjectileAmmoCurrent ∧
    (FireHomingProjectile W s).1.HomingProjectileClass = s.HomingProjectileClass ∧
    (FireHomingProjectile W s).1.bIsPlayerAlive = s.bIsPlayerAlive := by
  unfold FireHomingProjectile
  split_ifs
  · simp
  · simpa using fireLoop_frame W 0 s
  · simp

theorem FireHomingProjectile_ammo_range (W : World) (s : TankState)
    (hmax : 0 ≤ s.HomingProjectileAmmoMax)
    (h0 : 0 ≤ s.HomingProjectileAmmoCurrent)
    (h1 : s.HomingProjectileAmmoCurrent ≤ s.HomingProjectileAmmoMax) :
    0 ≤ (FireHomingProjectile W s).1.HomingProjectileAmmoCurrent ∧
    (FireHomingProjectile W s).1.HomingProjectileAmmoCurrent ≤ s.HomingProjectileAmmoMax := by
  unfold FireHomingProjectile
  split_ifs
  · exact ⟨h0, h1⟩
  · simpa using fireLoop_ammo_range W 0 s hmax h0 h1
  · exact ⟨h0, h1⟩

theorem run_ammo_range (W : World) (s : TankState) (op : TankOp)
    (hP : 0 ≤ s.ProjectileAmmoMax) (hH : 0 ≤ s.HomingProjectileAmmoMax) (h : AmmoInRange s) :
    (TankOp.run W s op).1.ProjectileAmmoMax = s.ProjectileAmmoMax ∧
    (TankOp.run W s op).1.HomingProjectileAmmoMax = s.HomingProjectileAmmoMax ∧
    AmmoInRange (TankOp.run W s op).1 := by
  obtain ⟨h1, h2, h3, h4⟩ := h
  cases op with
  | addAmmo t n =>
    have hp := ProcessNewAmmo_range s.ProjectileAmmoCurrent n _ hP
    have hh := ProcessNewAmmo_range s.HomingProjectileAmmoCurrent n _ hH
    simp only [TankOp.run, AddAmmo, AmmoInRange]
    split_ifs
    · exact ⟨rfl, rfl, hp.1, hp.2, h3, h4⟩
    · exact ⟨rfl, rfl, h1, h2, hh.1, hh.2⟩
    · exact ⟨rfl, rfl, h1, h2, h3, h4⟩
  | fire =>
    have hp := ProcessNewAmmo_range s.ProjectileAmmoCurrent (-1) _ hP
    simp only [TankOp.run, Fire, AmmoInRange]
    split_ifs
    · exact ⟨rfl, rfl, hp.1, hp.2, h3, h4⟩
    · exact ⟨rfl, rfl, h1, h2, h3, h4⟩
  | targetHomingProjectile trace =>
    obtain ⟨f1, f2, f3, f4, _, _⟩ := TargetHomingProjectile_frame W s trace
    simp only [TankOp.run, AmmoInRange, f1, f2, f3, f4]
    exact ⟨trivial, trivial, h1, h2, h3, h4⟩
  | fireHomingProjectile =>
    obtain ⟨f1, f2, f3, _, _⟩ := FireHomingProjectile_frame W s
    have hr := FireHomingProjectile_ammo_range W s hH h3 h4
    simp only [TankOp.run, AmmoInRange, f1, f2, f3]
    exact ⟨trivial, trivial, h1, h2, hr.1, hr.2⟩

theorem runOps_ammo_range (W : World) (ops : List TankOp) (s : TankState)
    (hP : 0 ≤ s.ProjectileAmmoMax) (hH : 0 ≤ s.HomingProjectileAmmoMax) (h : AmmoInRange s) :
    (runOps W s ops).1.ProjectileAmmoMax = s.ProjectileAmmoMax ∧
    (runOps W s ops).1.HomingProjectileAmmoMax = s.HomingProjectileAmmoMax ∧
    AmmoInRange (runOps W s ops).1 := by
  induction ops generalizing s with
  | nil => exact ⟨rfl, rfl, h⟩
  | cons op rest ih =>
    obtain ⟨e1, e2, e3⟩ := run_ammo_range W s op hP hH h
    obtain ⟨r1, r2, r3⟩ := ih (TankOp.run W s op).1 (e1 ▸ hP) (e2 ▸ hH) e3
    simp only [runOps]
    exact ⟨r1.trans e1, r2.trans e2, r3⟩

/-! ## Ammo bookkeeping -/

/-- C1 (ammo range invariant): from the state established by `BeginPlay` with non-negative
maxima, after every finite sequence of `AddAmmo`, `Fire`, `TargetHomingProjectile` and
`FireHomingProjectile` calls with arbitrary arguments and raycast outcomes, both counters lie
between zero and their maxima. -/
theorem ammo_range_invariant (W : World) (s0 : TankState) (ops : List TankOp)
    (hP : 0 ≤ s0.ProjectileAmmoMax) (hH : 0 ≤ s0.HomingProjectileAmmoMax) :
    0 ≤ (runOps W (BeginPlay s0).1 ops).1.ProjectileAmmoCurrent ∧
    (runOps W (BeginPlay s0).1 ops).1.ProjectileAmmoCurrent
      ≤ (runOps W (BeginPlay s0).1 ops).1.ProjectileAmmoMax ∧
    0 ≤ (runOps W (BeginPlay s0).1 ops).1.HomingProjectileAmmoCurrent ∧
    (runOps W (BeginPlay s0).1 ops).1.HomingProjectileAmmoCurrent
      ≤ (runOps W (BeginPlay s0).1 ops).1.HomingProjectileAmmoMax := by
  have hinit : AmmoInRange (BeginPlay s0).1 := by
    simp only [AmmoInRange, BeginPlay]
    exact ⟨hP, le_refl _, hH, le_refl _⟩
  obtain ⟨_, _, r⟩ := runOps_ammo_range W ops (BeginPlay s0).1 hP hH hinit
  exact r

theorem ammo_range_invariant_witness :
    0 ≤ (runOps pawnWorld (BeginPlay (constructed 6 4 true 77 (-5))).1
          sampleOps).1.ProjectileAmmoCurrent ∧
    (runOps pawnWorld (BeginPlay (constructed 6 4 true 77 (-5))).1
          sampleOps).1.ProjectileAmmoCurrent
      ≤ (runOps pawnWorld (BeginPlay (constructed 6 4 true 77 (-5))).1
          sampleOps).1.ProjectileAmmoMax ∧
    0 ≤ (runOps pawnWorld (BeginPlay (constructed 6 4 true 77 (-5))).1
          sampleOps).1.HomingProjectileAmmoCurrent ∧
    (runOps pawnWorld (BeginPlay (constructed 6 4 true 77 (-5))).1
          sampleOps).1.HomingProjectileAmmoCurrent
      ≤ (runOps pawnWorld (BeginPlay (constructed 6 4 true 77 (-5))).1
          sampleOps).1.HomingProjectileAmmoMax :=
  ammo_range_invariant pawnWorld (constructed 6 4 true 77 (-5)) sampleOps
    (by decide) (by decide)

/-- C9, as stated, fails when the `int` addition overflows: with one round left, a maximum of 6
and a pick-up of 2147483647 rounds the mathematical sum exceeds the maximum, so the claim promises
6, but the wrapped sum is negative and both `ProcessNewAmmo` and `AddAmmo(0, N)` yield 0. -/
theorem clamped_ammo_overflow_counterexample :
    clampedSum 1 2147483647 6 = 6 ∧ ProcessNewAmmo 1 2147483647 6 = 0 ∧
    (0 ≤ (tankWith 1 4 []).ProjectileAmmoCurrent ∧
      (tankWith 1 4 []).ProjectileAmmoCurrent ≤ (tankWith 1 4 []).ProjectileAmmoMax) ∧
    min (max ((tankWith 1 4 []).ProjectileAmmoCurrent + 2147483647) 0)
      (tankWith 1 4 []).ProjectileAmmoMax = 6 ∧
    (AddAmmo (tankWith 1 4 []) 0 2147483647).1.ProjectileAmmoCurrent = 0 := by
  decide

/-- C9 (clamped ammo arithmetic, amended): whenever the `int` sum `cur + add` does not overflow,
`ProcessNewAmmo(cur, add, max)` is `0` when `cur + add < 0`, `max` when `cur + add > max` and
`cur + add` otherwise; consequently, for `0 ≤ cur ≤ max` and a non-overflowing `cur + N`,
`AddAmmo(0, N)` and `AddAmmo(1, N)` set their counter to `min(max(cur + N, 0), max)`, and `Fire`
with `cur > 0` (and `cur ≤ max`, `max` an `int`) sets `ProjectileAmmoCurrent` to `cur - 1`. -/
theorem clamped_ammo_arithmetic :
    (∀ cur add max : Int, 0 ≤ max → -2147483648 ≤ cur + add → cur + add ≤ 2147483647 →
      ProcessNewAmmo cur add max = clampedSum cur add max) ∧
    (∀ (s : TankState) (N : Int),
      0 ≤ s.ProjectileAmmoCurrent → s.ProjectileAmmoCurrent ≤ s.ProjectileAmmoMax →
      -2147483648 ≤ s.ProjectileAmmoCurrent + N → s.ProjectileAmmoCurrent + N ≤ 2147483647 →
      (AddAmmo s 0 N).1.ProjectileAmmoCurrent
        = min (max (s.ProjectileAmmoCurrent + N) 0) s.ProjectileAmmoMax) ∧
    (∀ (s : TankState) (N : Int),
      0 ≤ s.HomingProjectileAmmoCurrent →
      s.HomingProjectileAmmoCurrent ≤ s.HomingProjectileAmmoMax →
      -2147483648 ≤ s.HomingProjectileAmmoCurrent + N →
      s.HomingProjectileAmmoCurrent + N ≤ 2147483647 →
      (AddAmmo s 1 N).1.HomingProjectileAmmoCurrent
        = min (max (s.HomingProjectileAmmoCurrent + N) 0) s.HomingProjectileAmmoMax) ∧
    (∀ s : TankState,
      0 < s.ProjectileAmmoCurrent → s.ProjectileAmmoCurrent ≤ s.ProjectileAmmoMax →
      s.ProjectileAmmoMax ≤ 2147483647 →
      (Fire s).1.ProjectileAmmoCurrent = s.ProjectileAmmoCurrent - 1) := by
  refine ⟨?_, ?_, ?_, ?_⟩
  · intro cur add max _ h1 h2
    rw [ProcessNewAmmo_of_noOverflow _ _ _ h1 h2]
    unfold Clamp clampedSum
    split_ifs <;> omega
  · intro s N h0 h1 h2 h3
    simp only [AddAmmo, if_true]
    rw [ProcessNewAmmo_of_noOverflow _ _ _ h2 h3]
    unfold Clamp
    split_ifs <;> omega
  · intro s N h0 h1 h2 h3
    simp only [AddAmmo, one_ne_zero, if_false, if_true]
    rw [ProcessNewAmmo_of_noOverflow _ _ _ h2 h3]
    unfold Clamp
    split_ifs <;> omega
  · intro s h0 h1 h2
    simp only [Fire, h0, if_true]
    exact ProcessNewAmmo_decrement _ _ h0 h1 h2

theorem clamped_ammo_arithmetic_witness :
    ProcessNewAmmo 5 3 6 = clampedSum 5 3 6 ∧
    (AddAmmo (tankWith 2 1 []) 0 (-7)).1.ProjectileAmmoCurrent
      = min (max ((tankWith 2 1 []).ProjectileAmmoCurrent + (-7)) 0)
          (tankWith 2 1 []).ProjectileAmmoMax ∧
    (AddAmmo (tankWith 2 1 []) 1 9).1.HomingProjectileAmmoCurrent
      = min (max ((tankWith 2 1 []).HomingProjectileAmmoCurrent + 9) 0)
          (tankWith 2 1 []).HomingProjectileAmmoMax ∧
    (Fire (tankWith 2 1 [])).1.ProjectileAmmoCurrent
      = (tankWith 2 1 []).ProjectileAmmoCurrent - 1 :=
  ⟨clamped_ammo_arithmetic.1 5 3 6 (by decide) (by decide) (by decide),
   clamped_ammo_arithmetic.2.1 (tankWith 2 1 []) (-7)
     (by decide) (by decide) (by decide) (by decide),
   clamped_ammo_arithmetic.2.2.1 (tankWith 2 1 []) 9
     (by decide) (by decide) (by decide) (by decide),
   clamped_ammo_arithmetic.2.2.2 (tankWith 2 1 []) (by decide) (by decide) (by decide)⟩

/-- C7 (standard fire with no ammo is a no-op): with `ProjectileAmmoCurrent = 0`, `Fire` leaves
the whole tank state unchanged and only logs; the parent `Fire` is not called and neither
delegate is notified. -/
theorem fire_without_ammo_is_noop (s : TankState) (h : s.ProjectileAmmoCurrent = 0) :
    (Fire s).1 = s ∧ (Fire s).2 = [Effect.log LogMsg.noAmmoForProjectile] ∧
    Effect.superFire ∉ (Fire s).2 ∧
    (∀ n, Effect.projectileCountChanged n ∉ (Fire s).2) ∧
    (∀ n, Effect.homingProjectileCountChanged n ∉ (Fire s).2) := by
  have hf : Fire s = (s, [Effect.log LogMsg.noAmmoForProjectile]) := by
    simp [Fire, h]
  rw [hf]
  simp

theorem fire_without_ammo_is_noop_witness :
    (Fire (tankWith 0 3 [7, 8])).1 = tankWith 0 3 [7, 8] ∧
    (Fire (tankWith 0 3 [7, 8])).2 = [Effect.log LogMsg.noAmmoForProjectile] ∧
    Effect.superFire ∉ (Fire (tankWith 0 3 [7, 8])).2 ∧
    (∀ n, Effect.projectileCountChanged n ∉ (Fire (tankWith 0 3 [7, 8])).2) ∧
    (∀ n, Effect.homingProjectileCountChanged n ∉ (Fire (tankWith 0 3 [7, 8])).2) :=
  fire_without_ammo_is_noop (tankWith 0 3 [7, 8]) (by decide)

theorem run_targetCap (W : World) (s : TankState) (op : TankOp)
    (h : TargetCap s) (hop : op.keepsHomingAmmo s) : TargetCap (TankOp.run W s op).1 := by
  obtain ⟨h1, h2, h3⟩ := h
  cases op with
  | addAmmo t n =>
    simp only [TankOp.run, AddAmmo, TargetCap]
    split_ifs with ht0 ht1
    · exact ⟨h1, h2, h3⟩
    · obtain ⟨hn, hsum⟩ := hop ht1
      have hlen : (0 : Int) ≤ (s.HomingTarget.length : Int) := Int.natCast_nonneg _
      have hb : s.HomingProjectileAmmoCurrent
            ≤ ProcessNewAmmo s.HomingProjectileAmmoCurrent n s.HomingProjectileAmmoMax ∧
          ProcessNewAmmo s.HomingProjectileAmmoCurrent n s.HomingProjectileAmmoMax
            ≤ s.HomingProjectileAmmoMax := by
        rw [ProcessNewAmmo_of_noOverflow _ _ _ (by omega) hsum]
        unfold Clamp
        split_ifs <;> omega
      exact ⟨le_trans h1 hb.1, hb.2, h3⟩
    · exact ⟨h1, h2, h3⟩
  | fire =>
    simp only [TankOp.run, Fire, TargetCap]
    split_ifs <;> exact ⟨h1, h2, h3⟩
  | targetHomingProjectile trace =>
    simp only [TankOp.run, TargetCap, TargetHomingProjectile]
    repeat' split
    all_goals simp only [List.length_nil, List.length_append, List.length_singleton]
    all_goals first
      | exact ⟨h1, h2, h3⟩
      | (refine ⟨?_, h2, h3⟩; push_cast; omega)
  | fireHomingProjectile =>
    simp only [TankOp.run, TargetCap, FireHomingProjectile]
    split_ifs
    · exact ⟨h1, h2, h3⟩
    · have hc := fireLoop_cap W 0 s h3 h2 h1
      have hf := fireLoop_frame W 0 s
      exact ⟨hc.1, hf.2.1 ▸ hc.2, hf.2.1 ▸ h3⟩
    · refine ⟨?_, h2, h3⟩
      have hlen : (0 : Int) ≤ (s.HomingTarget.length : Int) := Int.natCast_nonneg _
      simp only [List.length_nil]
      push_cast
      omega

theorem runOps_targetCap (W : World) (ops : List TankOp) (s : TankState)
    (h : TargetCap s) (hops : keepHomingAmmo W s ops) : TargetCap (runOps W s ops).1 := by
  induction ops generalizing s with
  | nil => exact h
  | cons op rest ih =>
    simp only [runOps]
    exact ih _ (run_targetCap W s op h hops.1) hops.2

/-! ## Homing targets -/

/-- C2, as stated, fails: after two targets are acquired, `AddAmmo(1, -4)` takes all homing ammo
away and leaves both targets in the list, so the list is longer than the remaining ammo. -/
theorem target_cap_counterexample :
    (constructed 6 4 true 0 0).HomingTarget = [] ∧
    (runOps pawnWorld (BeginPlay (constructed 6 4 true 0 0)).1
      [TankOp.targetHomingProjectile (some 7), TankOp.targetHomingProjectile (some 8),
       TankOp.addAmmo 1 (-4)]).1.HomingTarget = [7, 8] ∧
    (runOps pawnWorld (BeginPlay (constructed 6 4 true 0 0)).1
      [TankOp.targetHomingProjectile (some 7), TankOp.targetHomingProjectile (some 8),
       TankOp.addAmmo 1 (-4)]).1.HomingProjectileAmmoCurrent = 0 := by
  decide

/-- C2 (target cap invariant, amended): from the `BeginPlay` state of a tank with an empty target
list and a homing maximum that is a non-negative `int`, after every finite sequence of
`TargetHomingProjectile`, `FireHomingProjectile`, `Fire` and `AddAmmo` calls in which no
`AddAmmo(1, N)` takes homing ammo away (`N ≥ 0` and no `int` overflow), the length of
`HomingTarget` is at most `HomingProjectileAmmoCurrent`. -/
theorem target_cap_invariant (W : World) (s0 : TankState) (ops : List TankOp)
    (hempty : s0.HomingTarget = [])
    (hmax0 : 0 ≤ s0.HomingProjectileAmmoMax) (hmax1 : s0.HomingProjectileAmmoMax ≤ 2147483647)
    (hops : keepHomingAmmo W (BeginPlay s0).1 ops) :
    ((runOps W (BeginPlay s0).1 ops).1.HomingTarget.length : Int)
      ≤ (runOps W (BeginPlay s0).1 ops).1.HomingProjectileAmmoCurrent := by
  have hinit : TargetCap (BeginPlay s0).1 := by
    simp only [TargetCap, BeginPlay, hempty, List.length_nil]
    exact ⟨by simpa using hmax0, le_refl _, hmax1⟩
  exact (runOps_targetCap W ops _ hinit hops).1

theorem target_cap_invariant_witness :
    ((runOps pawnWorld (BeginPlay (constructed 6 4 true 0 0)).1 pickUpOps).1.HomingTarget.length
        : Int)
      ≤ (runOps pawnWorld (BeginPlay (constructed 6 4 true 0 0)).1
          pickUpOps).1.HomingProjectileAmmoCurrent :=
  target_cap_invariant pawnWorld (constructed 6 4 true 0 0) pickUpOps rfl (by decide) (by decide)
    (by simp [pickUpOps, keepHomingAmmo, TankOp.keepsHomingAmmo, TankOp.run, BeginPlay,
      constructed, TargetHomingProjectile, pawnWorld, Fire, AddAmmo, ProcessNewAmmo, wrapInt32,
      Clamp, FireHomingProjectile, fireLoop, fireBodyState, RemoveAtSwap])

theorem run_nodup (W : World) (s : TankState) (op : TankOp) (h : s.HomingTarget.Nodup) :
    (TankOp.run W s op).1.HomingTarget.Nodup := by
  cases op with
  | addAmmo t n =>
    simp only [TankOp.run, AddAmmo]
    split_ifs <;> exact h
  | fire =>
    simp only [TankOp.run, Fire]
    split_ifs <;> exact h
  | targetHomingProjectile trace =>
    simp only [TankOp.run, TargetHomingProjectile]
    repeat' split
    all_goals first
      | exact h
      | exact List.nodup_nil
      | (rename_i hnot
         exact List.Nodup.append h (List.nodup_singleton _) (by simpa using hnot))
  | fireHomingProjectile =>
    simp only [TankOp.run, FireHomingProjectile]
    split_ifs
    · exact h
    · exact fireLoop_nodup W 0 s h
    · exact List.nodup_nil

theorem runOps_nodup (W : World) (ops : List TankOp) (s : TankState)
    (h : s.HomingTarget.Nodup) : (runOps W s ops).1.HomingTarget.Nodup := by
  induction ops generalizing s with
  | nil => exact h
  | cons op rest ih =>
    simp only [runOps]
    exact ih _ (run_nodup W s op h)

/-- C4 (no duplicate targets): in every state reached from the `BeginPlay` state of a tank with
an empty target list by any finite sequence of `TargetHomingProjectile`, `FireHomingProjectile`,
`Fire` and `AddAmmo` calls, `HomingTarget` has no duplicates: the entries at two different
indices are never the same actor. -/
theorem no_duplicate_targets (W : World) (s0 : TankState) (ops : List TankOp)
    (hempty : s0.HomingTarget = []) :
    (runOps W (BeginPlay s0).1 ops).1.HomingTarget.Nodup ∧
    ∀ i j : Nat, i < j → j < (runOps W (BeginPlay s0).1 ops).1.HomingTarget.length →
      (runOps W (BeginPlay s0).1 ops).1.HomingTarget[i]?
        ≠ (runOps W (BeginPlay s0).1 ops).1.HomingTarget[j]? := by
  have hinit : (BeginPlay s0).1.HomingTarget.Nodup := by
    simp [BeginPlay, hempty]
  have hnd := runOps_nodup W ops _ hinit
  exact ⟨hnd, List.nodup_iff_getElem?_ne_getElem?.mp hnd⟩

theorem no_duplicate_targets_witness :
    (runOps pawnWorld (BeginPlay (constructed 6 4 true 0 0)).1 sampleOps).1.HomingTarget.Nodup :=
  (no_duplicate_targets pawnWorld (constructed 6 4 true 0 0) sampleOps rfl).1

/-- C3 fails on the code: with two targets in the list and a homing projectile class set,
`FireHomingProjectile` spawns a single projectile, aimed at the first target; the second target
keeps its outline and stays in the list, and the ammo drops by one only. The loop index
advances while `RemoveAtSwap` shrinks the list, so every other target is skipped. -/
theorem homing_fire_skips_second_target :
    (tankWith 6 4 [7, 8]).HomingProjectileClass = true ∧
    FireHomingProjectile pawnWorld (tankWith 6 4 [7, 8]) =
      (tankWith 6 3 [8],
       [Effect.spawnHomingProjectile, Effect.setRenderCustomDepth 7 false,
        Effect.homingProjectile 7, Effect.homingProjectileCountChanged 3,
        Effect.log (LogMsg.targets 1)]) := by
  refine ⟨rfl, ?_⟩
  simp [FireHomingProjectile, tankWith, fireLoop, fireBodyState, fireBodyEffects, RemoveAtSwap,
    DrawTargetOutline, pawnWorld, ProcessNewAmmo, wrapInt32, Clamp]

/-- C8, as stated, fails: with no homing ammo but one target still in the list, and a homing
projectile class set, `FireHomingProjectile` spawns a projectile at that target, empties the list
and notifies `OnHomingProjectileCountChanged` with 0; without a class it still empties the list. -/
theorem homing_fire_without_ammo_counterexample :
    (tankWith 6 0 [7]).HomingProjectileAmmoCurrent = 0 ∧
    FireHomingProjectile pawnWorld (tankWith 6 0 [7]) =
      (tankWith 6 0 [],
       [Effect.spawnHomingProjectile, Effect.setRenderCustomDepth 7 false,
        Effect.homingProjectile 7, Effect.homingProjectileCountChanged 0,
        Effect.log (LogMsg.targets 0)]) ∧
    (FireHomingProjectile pawnWorld
      { tankWith 6 0 [7] with HomingProjectileClass := false }).1.HomingTarget = [] := by
  refine ⟨rfl, ?_, ?_⟩
  · simp [FireHomingProjectile, tankWith, fireLoop, fireBodyState, fireBodyEffects, RemoveAtSwap,
      DrawTargetOutline, pawnWorld, ProcessNewAmmo, wrapInt32, Clamp]
  · simp [FireHomingProjectile, tankWith]

/-- C8 (homing fire with no ammo, amended): with `HomingProjectileAmmoCurrent = 0`,
`FireHomingProjectile` leaves both counters unchanged (for a non-negative homing maximum); when
moreover the `HomingTarget` list is empty, as the target cap requires of a tank without homing
ammo, it leaves the whole state unchanged, spawns no projectile and emits nothing, whether or not
a homing projectile class is set. -/
theorem homing_fire_without_ammo (W : World) (s : TankState)
    (h : s.HomingProjectileAmmoCurrent = 0) :
    (0 ≤ s.HomingProjectileAmmoMax →
      (FireHomingProjectile W s).1.ProjectileAmmoCurrent = s.ProjectileAmmoCurrent ∧
      (FireHomingProjectile W s).1.HomingProjectileAmmoCurrent = s.HomingProjectileAmmoCurrent) ∧
    ((s.HomingTarget.length : Int) ≤ s.HomingProjectileAmmoCurrent →
      FireHomingProjectile W s = (s, [])) := by
  constructor
  · intro hmax
    refine ⟨(FireHomingProjectile_frame W s).2.2.1, ?_⟩
    rw [h]
    unfold FireHomingProjectile
    split_ifs
    · exact h
    · exact fireLoop_ammo_zero W 0 s hmax h
    · exact h
  · intro hcap
    have hlen : s.HomingTarget.length = 0 := by omega
    simp [FireHomingProjectile, hlen]


theorem homing_fire_without_ammo_witness :
    ((FireHomingProjectile pawnWorld (tankWith 3 0 [7, 8])).1.ProjectileAmmoCurrent
        = (tankWith 3 0 [7, 8]).ProjectileAmmoCurrent ∧
      (FireHomingProjectile pawnWorld (tankWith 3 0 [7, 8])).1.HomingProjectileAmmoCurrent
        = (tankWith 3 0 [7, 8]).HomingProjectileAmmoCurrent) ∧
    FireHomingProjectile pawnWorld (tankWith 3 0 []) = (tankWith 3 0 [], []) :=
  ⟨(homing_fire_without_ammo pawnWorld (tankWith 3 0 [7, 8]) (by decide)).1 (by decide),
   (homing_fire_without_ammo pawnWorld (tankWith 3 0 []) (by decide)).2 (by decide)⟩

theorem clearOutlines_eq_flatMap (W : World) (l : List Actor) :
    clearOutlines W l = l.flatMap (fun t => DrawTargetOutline W t false) := by
  induction l with
  | nil => rfl
  | cons t rest ih => simp [clearOutlines, ih]

theorem outline_on_not_mem_DrawTargetOutline_false (W : World) (t : Actor) (mesh : Nat) :
    Effect.setRenderCustomDepth mesh true ∉ DrawTargetOutline W t false := by
  unfold DrawTargetOutline
  split <;> simp

theorem outline_on_not_mem_clearOutlines (W : World) (l : List Actor) (mesh : Nat) :
    Effect.setRenderCustomDepth mesh true ∉ clearOutlines W l := by
  induction l with
  | nil => simp [clearOutlines]
  | cons t rest ih =>
    simp only [clearOutlines, List.mem_append, not_or]
    exact ⟨outline_on_not_mem_DrawTargetOutline_false W t mesh, ih⟩

theorem TargetHomingProjectile_of_accept (W : World) (s : TankState) (hit : Actor)
    (h0 : 0 < s.HomingProjectileAmmoCurrent) (hp : W.IsAPawn hit = true)
    (hlen : (s.HomingTarget.length : Int) < s.HomingProjectileAmmoCurrent)
    (hnew : hit ∉ s.HomingTarget) :
    TargetHomingProjectile W s (some hit) =
      ({ s with HomingTarget := s.HomingTarget ++ [hit] },
        [Effect.log (LogMsg.traceResult true), Effect.log (LogMsg.targetIs hit)]
          ++ DrawTargetOutline W hit true) := by
  have hlen2 : ¬ s.HomingProjectileAmmoCurrent ≤ (s.HomingTarget.length : Int) := by omega
  simp [TargetHomingProjectile, h0, hp, hlen2, hnew]

theorem TargetHomingProjectile_of_noAmmo (W : World) (s : TankState) (trace : Option Actor)
    (h0 : ¬ 0 < s.HomingProjectileAmmoCurrent) :
    TargetHomingProjectile W s trace = (s, [Effect.log LogMsg.noAmmoForHoming]) := by
  simp [TargetHomingProjectile, h0]

theorem TargetHomingProjectile_of_miss (W : World) (s : TankState)
    (h0 : 0 < s.HomingProjectileAmmoCurrent) :
    TargetHomingProjectile W s none = (s, [Effect.log (LogMsg.traceResult false)]) := by
  simp [TargetHomingProjectile, h0]

theorem TargetHomingProjectile_of_nonPawn (W : World) (s : TankState) (hit : Actor)
    (h0 : 0 < s.HomingProjectileAmmoCurrent) (hp : W.IsAPawn hit = false) :
    TargetHomingProjectile W s (some hit) =
      ({ s with HomingTarget := [] },
        Effect.log (LogMsg.traceResult true) :: clearOutlines W s.HomingTarget) := by
  by_cases hn : s.HomingTarget.length ≠ 0
  · simp [TargetHomingProjectile, h0, hp, hn]
  · have hnil : s.HomingTarget = [] := List.length_eq_zero.mp (not_not.mp hn)
    cases s
    simp_all [TargetHomingProjectile, clearOutlines]

theorem TargetHomingProjectile_of_full (W : World) (s : TankState) (hit : Actor)
    (h0 : 0 < s.HomingProjectileAmmoCurrent) (hp : W.IsAPawn hit = true)
    (hc : s.HomingProjectileAmmoCurrent ≤ (s.HomingTarget.length : Int)) :
    TargetHomingProjectile W s (some hit) =
      (s, [Effect.log (LogMsg.traceResult true), Effect.log (LogMsg.targetIs hit),
           Effect.log LogMsg.notEnoughAmmoForMoreTargets]) := by
  simp [TargetHomingProjectile, h0, hp, hc]

theorem TargetHomingProjectile_of_duplicate (W : World) (s : TankState) (hit : Actor)
    (h0 : 0 < s.HomingProjectileAmmoCurrent) (hp : W.IsAPawn hit = true)
    (hc : ¬ s.HomingProjectileAmmoCurrent ≤ (s.HomingTarget.length : Int))
    (hm : hit ∈ s.HomingTarget) :
    TargetHomingProjectile W s (some hit) =
      (s, [Effect.log (LogMsg.traceResult true), Effect.log (LogMsg.targetIs hit)]) := by
  simp [TargetHomingProjectile, h0, hp, hc, hm]

theorem TargetHomingProjectile_of_reject (W : World) (s : TankState) (trace : Option Actor)
    (h : ¬ acceptanceRule W s trace) :
    ((TargetHomingProjectile W s trace).1.HomingTarget = s.HomingTarget ∨
      (TargetHomingProjectile W s trace).1.HomingTarget = []) ∧
    ∀ mesh, Effect.setRenderCustomDepth mesh true ∉ (TargetHomingProjectile W s trace).2 := by
  by_cases h0 : 0 < s.HomingProjectileAmmoCurrent
  · cases trace with
    | none =>
      rw [TargetHomingProjectile_of_miss W s h0]
      simp
    | some hit =>
      cases hp : W.IsAPawn hit with
      | false =>
        rw [TargetHomingProjectile_of_nonPawn W s hit h0 hp]
        refine ⟨Or.inr rfl, fun mesh => ?_⟩
        simp only [List.mem_cons, not_or]
        exact ⟨by simp, outline_on_not_mem_clearOutlines W _ mesh⟩
      | true =>
        by_cases hc : s.HomingProjectileAmmoCurrent ≤ (s.HomingTarget.length : Int)
        · rw [TargetHomingProjectile_of_full W s hit h0 hp hc]
          simp
        · by_cases hm : hit ∈ s.HomingTarget
          · rw [TargetHomingProjectile_of_duplicate W s hit h0 hp hc hm]
            simp
          · exact absurd ⟨h0, hit, rfl, hp, by omega, hm⟩ h
  · rw [TargetHomingProjectile_of_noAmmo W s trace h0]
    simp

theorem renderCustomDepthAfter_off (m : Nat) (effects : List Effect) :
    ∀ depth : Nat → Bool, (∀ mesh, Effect.setRenderCustomDepth mesh true ∉ effects) →
      (Effect.setRenderCustomDepth m false ∈ effects ∨ depth m = false) →
      renderCustomDepthAfter effects depth m = false := by
  induction effects with
  | nil =>
    intro depth _ h
    rcases h with h | h
    · simp at h
    · exact h
  | cons e rest ih =>
    intro depth hno h
    have hrest : ∀ mesh, Effect.setRenderCustomDepth mesh true ∉ rest := fun mesh hmem =>
      hno mesh (List.mem_cons_of_mem _ hmem)
    cases e with
    | setRenderCustomDepth mesh b =>
      have hb : b = false := by
        cases b with
        | false => rfl
        | true => exact absurd (List.mem_cons_self _ _) (hno mesh)
      subst hb
      simp only [renderCustomDepthAfter]
      apply ih _ hrest
      rcases h with h | h
      · rcases List.mem_cons.mp h with h | h
        · right
          have hm : m = mesh := by injection h
          simp [hm]
        · exact Or.inl h
      · right
        by_cases hm : m = mesh <;> simp [hm, h]
    | projectileCountChanged n =>
      simp only [renderCustomDepthAfter]
      exact ih _ hrest (by simpa using h)
    | homingProjectileCountChanged n =>
      simp only [renderCustomDepthAfter]
      exact ih _ hrest (by simpa using h)
    | superFire =>
      simp only [renderCustomDepthAfter]
      exact ih _ hrest (by simpa using h)
    | spawnHomingProjectile =>
      simp only [renderCustomDepthAfter]
      exact ih _ hrest (by simpa using h)
    | homingProjectile target =>
      simp only [renderCustomDepthAfter]
      exact ih _ hrest (by simpa using h)
    | log msg =>
      simp only [renderCustomDepthAfter]
      exact ih _ hrest (by simpa using h)

theorem outline_off_mem_clearOutlines (W : World) (l : List Actor) (a : Actor) (mesh : Nat)
    (ha : a ∈ l) (hmesh : W.TargetMesh a = some mesh) :
    Effect.setRenderCustomDepth mesh false ∈ clearOutlines W l := by
  induction l with
  | nil => simp at ha
  | cons t rest ih =>
    simp only [clearOutlines, List.mem_append]
    rcases List.mem_cons.mp ha with h | h
    · left
      subst h
      simp [DrawTargetOutline, hmesh]
    · exact Or.inr (ih h)

/-- C5, as stated, fails: a pawn without a target mesh is hit while every condition of the
acceptance rule holds; it is appended to `HomingTarget`, but `DrawTargetOutline` finds no mesh,
only logs, and no outline is turned on. -/
theorem target_acceptance_outline_counterexample :
    acceptanceRule bareWorld (tankWith 6 4 []) (some 7) ∧
    TargetHomingProjectile bareWorld (tankWith 6 4 []) (some 7) =
      (tankWith 6 4 [7],
       [Effect.log (LogMsg.traceResult true), Effect.log (LogMsg.targetIs 7),
        Effect.log LogMsg.noTargetMesh]) ∧
    outlined bareWorld
      (renderCustomDepthAfter (TargetHomingProjectile bareWorld (tankWith 6 4 []) (some 7)).2
        (fun _ => false)) 7 = false := by
  refine ⟨⟨by decide, 7, rfl, rfl, by decide, by simp [tankWith]⟩, by decide, rfl⟩

/-- C5 (target acceptance rule, amended): for every tank state and raycast outcome,
`TargetHomingProjectile` appends the hit actor to the end of `HomingTarget`, leaving the earlier
entries in place, and calls `DrawTargetOutline` with `true` on it, exactly when there is homing
ammo, the trace hit something, the hit actor is a pawn, the list is strictly shorter than the
homing ammo count and the hit actor is not yet in the list. When it appends an actor that has a
target mesh it turns that actor's outline on by `SetRenderCustomDepth(true)` on the mesh; when
the appended actor has no target mesh it only logs. In every other case the list is unchanged or
emptied, no actor is appended and no outline is turned on. The ammo counters and their maxima
are never changed. -/
theorem target_acceptance_rule (W : World) (s : TankState) (trace : Option Actor) :
    ((∃ hit, trace = some hit ∧
        (TargetHomingProjectile W s trace).1.HomingTarget = s.HomingTarget ++ [hit] ∧
        (TargetHomingProjectile W s trace).2 =
          [Effect.log (LogMsg.traceResult true), Effect.log (LogMsg.targetIs hit)]
            ++ DrawTargetOutline W hit true)
      ↔ acceptanceRule W s trace) ∧
    (¬ acceptanceRule W s trace →
      ((TargetHomingProjectile W s trace).1.HomingTarget = s.HomingTarget ∨
        (TargetHomingProjectile W s trace).1.HomingTarget = []) ∧
      (∀ a, (TargetHomingProjectile W s trace).1.HomingTarget ≠ s.HomingTarget ++ [a]) ∧
      ∀ mesh, Effect.setRenderCustomDepth mesh true ∉ (TargetHomingProjectile W s trace).2) ∧
    ((TargetHomingProjectile W s trace).1.ProjectileAmmoCurrent = s.ProjectileAmmoCurrent ∧
      (TargetHomingProjectile W s trace).1.HomingProjectileAmmoCurrent
        = s.HomingProjectileAmmoCurrent ∧
      (TargetHomingProjectile W s trace).1.ProjectileAmmoMax = s.ProjectileAmmoMax ∧
      (TargetHomingProjectile W s trace).1.HomingProjectileAmmoMax
        = s.HomingProjectileAmmoMax) ∧
    (∀ hit, trace = some hit → acceptanceRule W s trace →
      (∀ mesh, W.TargetMesh hit = some mesh →
        (TargetHomingProjectile W s trace).2 =
          [Effect.log (LogMsg.traceResult true), Effect.log (LogMsg.targetIs hit),
           Effect.setRenderCustomDepth mesh true] ∧
        ∀ depth, outlined W
          (renderCustomDepthAfter (TargetHomingProjectile W s trace).2 depth) hit = true) ∧
      (W.TargetMesh hit = none →
        (TargetHomingProjectile W s trace).2 =
          [Effect.log (LogMsg.traceResult true), Effect.log (LogMsg.targetIs hit),
           Effect.log LogMsg.noTargetMesh])) ∧
    ((∃ mesh, Effect.setRenderCustomDepth mesh true ∈ (TargetHomingProjectile W s trace).2) ↔
      (acceptanceRule W s trace ∧
        ∃ hit mesh, trace = some hit ∧ W.TargetMesh hit = some mesh)) := by
  have hrej : ¬ acceptanceRule W s trace →
      ((TargetHomingProjectile W s trace).1.HomingTarget = s.HomingTarget ∨
        (TargetHomingProjectile W s trace).1.HomingTarget = []) ∧
      (∀ a, (TargetHomingProjectile W s trace).1.HomingTarget ≠ s.HomingTarget ++ [a]) ∧
      ∀ mesh, Effect.setRenderCustomDepth mesh true ∉ (TargetHomingProjectile W s trace).2 := by
    intro h
    obtain ⟨h1, h2⟩ := TargetHomingProjectile_of_reject W s trace h
    refine ⟨h1, fun a heq => ?_, h2⟩
    rcases h1 with h1 | h1
    · rw [h1] at heq
      have := congrArg List.length heq
      simp at this
    · rw [h1] at heq
      have := congrArg List.length heq
      simp at this
  have hacc : ∀ hit, trace = some hit → acceptanceRule W s trace →
      TargetHomingProjectile W s trace =
        ({ s with HomingTarget := s.HomingTarget ++ [hit] },
          [Effect.log (LogMsg.traceResult true), Effect.log (LogMsg.targetIs hit)]
            ++ DrawTargetOutline W hit true) := by
    rintro hit rfl ⟨h0, hit2, heq, hp, hlen, hnew⟩
    have hh : hit2 = hit := (Option.some.inj heq).symm
    subst hh
    exact TargetHomingProjectile_of_accept W s hit2 h0 hp hlen hnew
  refine ⟨⟨?_, ?_⟩, hrej, ?_, ?_, ⟨?_, ?_⟩⟩
  · rintro ⟨hit, _, happ, _⟩
    by_contra hna
    exact (hrej hna).2.1 hit happ
  · intro hrule
    have hcopy := hrule
    obtain ⟨_, hit, heq, _⟩ := hcopy
    refine ⟨hit, heq, ?_⟩
    rw [hacc hit heq hrule]
    exact ⟨rfl, rfl⟩
  · obtain ⟨f1, f2, f3, f4, _, _⟩ := TargetHomingProjectile_frame W s trace
    exact ⟨f3, f4, f1, f2⟩
  · intro hit heq hrule
    rw [hacc hit heq hrule]
    constructor
    · intro mesh hmesh
      refine ⟨by simp [DrawTargetOutline, hmesh], fun depth => ?_⟩
      simp [DrawTargetOutline, hmesh, renderCustomDepthAfter, outlined]
    · intro hmesh
      simp [DrawTargetOutline, hmesh]
  · rintro ⟨mesh, hmem⟩
    by_cases hrule : acceptanceRule W s trace
    · refine ⟨hrule, ?_⟩
      have hcopy := hrule
      obtain ⟨_, hit, heq, _⟩ := hcopy
      rw [hacc hit heq hrule] at hmem
      cases hm : W.TargetMesh hit with
      | none => simp [DrawTargetOutline, hm] at hmem
      | some mesh2 => exact ⟨hit, mesh2, heq, hm⟩
    · exact absurd hmem ((hrej hrule).2.2 mesh)
  · rintro ⟨hrule, hit, mesh, heq, hmesh⟩
    refine ⟨mesh, ?_⟩
    rw [hacc hit heq hrule]
    simp [DrawTargetOutline, hmesh]

/-- C6 (non-pawn hit clears the list): when the targeting raycast of `TargetHomingProjectile`
hits an actor that is not a pawn, the call ends with `HomingTarget` empty and everything else in
the tank unchanged, and it has called `DrawTargetOutline` with `false` on every actor that was in
the list, in list order, and turned no outline on: `SetRenderCustomDepth(false)` is called on the
target mesh of every actor that was in the list, and after the call no such actor is outlined. -/
theorem non_pawn_hit_clears_targets (W : World) (s : TankState) (trace : Option Actor)
    (hit : Actor) (hhit : traceHits s trace hit) (hpawn : W.IsAPawn hit = false) :
    (TargetHomingProjectile W s trace).1 = { s with HomingTarget := [] } ∧
    (TargetHomingProjectile W s trace).2 =
      Effect.log (LogMsg.traceResult true)
        :: s.HomingTarget.flatMap (fun t => DrawTargetOutline W t false) ∧
    (∀ mesh, Effect.setRenderCustomDepth mesh true ∉ (TargetHomingProjectile W s trace).2) ∧
    (∀ a ∈ s.HomingTarget, ∀ mesh, W.TargetMesh a = some mesh →
      Effect.setRenderCustomDepth mesh false ∈ (TargetHomingProjectile W s trace).2) ∧
    (∀ depth, ∀ a ∈ s.HomingTarget,
      outlined W (renderCustomDepthAfter (TargetHomingProjectile W s trace).2 depth) a
        = false) := by
  obtain ⟨h0, rfl⟩ := hhit
  rw [TargetHomingProjectile_of_nonPawn W s hit h0 hpawn]
  have hno : ∀ mesh, Effect.setRenderCustomDepth mesh true ∉
      Effect.log (LogMsg.traceResult true) :: clearOutlines W s.HomingTarget := by
    intro mesh
    simp only [List.mem_cons, not_or]
    exact ⟨by simp, outline_on_not_mem_clearOutlines W _ mesh⟩
  have hoff : ∀ a ∈ s.HomingTarget, ∀ mesh, W.TargetMesh a = some mesh →
      Effect.setRenderCustomDepth mesh false ∈
        Effect.log (LogMsg.traceResult true) :: clearOutlines W s.HomingTarget := by
    intro a ha mesh hmesh
    exact List.mem_cons_of_mem _ (outline_off_mem_clearOutlines W _ a mesh ha hmesh)
  refine ⟨rfl, by rw [clearOutlines_eq_flatMap], hno, hoff, fun depth a ha => ?_⟩
  cases hm : W.TargetMesh a with
  | none => simp [outlined, hm]
  | some mesh =>
    simp only [outlined, hm]
    exact renderCustomDepthAfter_off mesh _ depth hno (Or.inl (hoff a ha mesh hm))

theorem non_pawn_hit_clears_targets_witness :
    (TargetHomingProjectile mixedWorld (tankWith 6 4 [7, 8]) (some 200)).1
      = { tankWith 6 4 [7, 8] with HomingTarget := [] } ∧
    (TargetHomingProjectile mixedWorld (tankWith 6 4 [7, 8]) (some 200)).2 =
      Effect.log (LogMsg.traceResult true)
        :: (tankWith 6 4 [7, 8]).HomingTarget.flatMap
            (fun t => DrawTargetOutline mixedWorld t false) ∧
    (∀ mesh, Effect.setRenderCustomDepth mesh true
      ∉ (TargetHomingProjectile mixedWorld (tankWith 6 4 [7, 8]) (some 200)).2) ∧
    (∀ a ∈ (tankWith 6 4 [7, 8]).HomingTarget, ∀ mesh, mixedWorld.TargetMesh a = some mesh →
      Effect.setRenderCustomDepth mesh false
        ∈ (TargetHomingProjectile mixedWorld (tankWith 6 4 [7, 8]) (some 200)).2) ∧
    (∀ depth, ∀ a ∈ (tankWith 6 4 [7, 8]).HomingTarget,
      outlined mixedWorld
        (renderCustomDepthAfter
          (TargetHomingProjectile mixedWorld (tankWith 6 4 [7, 8]) (some 200)).2 depth) a
        = false) :=
  non_pawn_hit_clears_targets mixedWorld (tankWith 6 4 [7, 8]) (some 200) 200
    ⟨by decide, rfl⟩ (by decide)

theorem target_acceptance_rule_witness :
    (∃ hit, some 9 = some hit ∧
      (TargetHomingProjectile mixedWorld (tankWith 6 4 [7, 8]) (some 9)).1.HomingTarget
        = (tankWith 6 4 [7, 8]).HomingTarget ++ [hit] ∧
      (TargetHomingProjectile mixedWorld (tankWith 6 4 [7, 8]) (some 9)).2 =
        [Effect.log (LogMsg.traceResult true), Effect.log (LogMsg.targetIs hit)]
          ++ DrawTargetOutline mixedWorld hit true) ∧
    (TargetHomingProjectile mixedWorld (tankWith 6 4 [7, 8]) (some 9)).2 =
      [Effect.log (LogMsg.traceResult true), Effect.log (LogMsg.targetIs 9),
       Effect.setRenderCustomDepth 9 true] ∧
    (TargetHomingProjectile bareWorld (tankWith 6 4 [7, 8]) (some 9)).2 =
      [Effect.log (LogMsg.traceResult true), Effect.log (LogMsg.targetIs 9),
       Effect.log LogMsg.noTargetMesh] :=
  ⟨(target_acceptance_rule mixedWorld (tankWith 6 4 [7, 8]) (some 9)).1.mpr
      ⟨by decide, 9, rfl, by decide, by decide, by decide⟩,
   (((target_acceptance_rule mixedWorld (tankWith 6 4 [7, 8]) (some 9)).2.2.2.1 9 rfl
      ⟨by decide, 9, rfl, by decide, by decide, by decide⟩).1 9 rfl).1,
   ((target_acceptance_rule bareWorld (tankWith 6 4 [7, 8]) (some 9)).2.2.2.1 9 rfl
      ⟨by decide, 9, rfl, by decide, by decide, by decide⟩).2 rfl⟩

/-! ## Notifications -/

theorem shotEvents_DrawTargetOutline (W : World) (t : Actor) (b : Bool) :
    shotEvents (DrawTargetOutline W t b) = [] := by
  unfold DrawTargetOutline shotEvents
  split <;> rfl

theorem spawnCount_DrawTargetOutline (W : World) (t : Actor) (b : Bool) :
    spawnCount (DrawTargetOutline W t b) = 0 := by
  unfold DrawTargetOutline spawnCount
  split <;> rfl

theorem shotEvents_clearOutlines (W : World) (l : List Actor) :
    shotEvents (clearOutlines W l) = [] := by
  induction l with
  | nil => rfl
  | cons t rest ih =>
    have h := shotEvents_DrawTargetOutline W t false
    unfold shotEvents at h ih ⊢
    simp [clearOutlines, h, ih]

theorem spawnCount_clearOutlines (W : World) (l : List Actor) :
    spawnCount (clearOutlines W l) = 0 := by
  induction l with
  | nil => rfl
  | cons t rest ih =>
    have h := spawnCount_DrawTargetOutline W t false
    unfold spawnCount at h ih ⊢
    simp [clearOutlines, h, ih]

theorem shotEvents_fireBodyEffects (W : World) (s : TankState) (index : Nat) (target : Actor) :
    shotEvents (fireBodyEffects W s index target) =
      [Effect.spawnHomingProjectile,
       Effect.homingProjectileCountChanged
         (ProcessNewAmmo s.HomingProjectileAmmoCurrent (-1) s.HomingProjectileAmmoMax)] := by
  have h := shotEvents_DrawTargetOutline W target false
  unfold shotEvents at h ⊢
  simp [fireBodyEffects, fireBodyState, h, Effect.isShotEvent]

theorem spawnCount_fireBodyEffects (W : World) (s : TankState) (index : Nat) (target : Actor) :
    spawnCount (fireBodyEffects W s index target) = 1 := by
  have h := spawnCount_DrawTargetOutline W target false
  unfold spawnCount at h ⊢
  simp [fireBodyEffects, h]

theorem fireLoop_shots (W : World) (index : Nat) (s : TankState) :
    shotEvents (fireLoop W index s).2 =
      shotsSpec s.HomingProjectileAmmoCurrent s.HomingProjectileAmmoMax
        (spawnCount (fireLoop W index s).2) ∧
    (fireLoop W index s).1.HomingProjectileAmmoCurrent =
      ammoAfterShots s.HomingProjectileAmmoCurrent s.HomingProjectileAmmoMax
        (spawnCount (fireLoop W index s).2) := by
  induction index, s using fireLoop.induct W with
  | case1 index s h ih =>
    rw [fireLoop]
    simp only [h, dite_true]
    have hc : spawnCount (fireBodyEffects W s index (s.HomingTarget.get ⟨index, h⟩) ++
        (fireLoop W (index + 1) (fireBodyState s index)).2) =
        spawnCount (fireLoop W (index + 1) (fireBodyState s index)).2 + 1 := by
      have h1 := spawnCount_fireBodyEffects W s index (s.HomingTarget.get ⟨index, h⟩)
      unfold spawnCount at h1 ⊢
      rw [List.count_append, h1]
      omega
    have he : shotEvents (fireBodyEffects W s index (s.HomingTarget.get ⟨index, h⟩) ++
        (fireLoop W (index + 1) (fireBodyState s index)).2) =
        shotEvents (fireBodyEffects W s index (s.HomingTarget.get ⟨index, h⟩)) ++
          shotEvents (fireLoop W (index + 1) (fireBodyState s index)).2 := by
      unfold shotEvents
      rw [List.filter_append]
    rw [hc, he, shotEvents_fireBodyEffects, ih.1, ih.2]
    exact ⟨rfl, rfl⟩
  | case2 index s h =>
    rw [fireLoop]
    simp [h, shotEvents, spawnCount, shotsSpec, ammoAfterShots]

theorem fireLoop_no_projectileCountChanged (W : World) (index : Nat) (s : TankState) (n : Int) :
    Effect.projectileCountChanged n ∉ (fireLoop W index s).2 := by
  induction index, s using fireLoop.induct W with
  | case1 index s h ih =>
    rw [fireLoop]
    simp only [h, dite_true, List.mem_append, not_or]
    refine ⟨?_, ih⟩
    unfold fireBodyEffects DrawTargetOutline
    split <;> simp
  | case2 index s h =>
    rw [fireLoop]
    simp [h]

theorem FireHomingProjectile_shots (W : World) (s : TankState) :
    shotEvents (FireHomingProjectile W s).2 =
      shotsSpec s.HomingProjectileAmmoCurrent s.HomingProjectileAmmoMax
        (spawnCount (FireHomingProjectile W s).2) ∧
    (FireHomingProjectile W s).1.HomingProjectileAmmoCurrent =
      ammoAfterShots s.HomingProjectileAmmoCurrent s.HomingProjectileAmmoMax
        (spawnCount (FireHomingProjectile W s).2) ∧
    ∀ n, Effect.projectileCountChanged n ∉ (FireHomingProjectile W s).2 := by
  unfold FireHomingProjectile
  split_ifs
  · simp [shotEvents, spawnCount, shotsSpec, ammoAfterShots]
  · obtain ⟨h1, h2⟩ := fireLoop_shots W 0 s
    have hs : shotEvents ((fireLoop W 0 s).2 ++
        [Effect.log (LogMsg.targets (fireLoop W 0 s).1.HomingTarget.length)]) =
        shotEvents (fireLoop W 0 s).2 := by
      unfold shotEvents
      rw [List.filter_append]
      simp [Effect.isShotEvent]
    have hc : spawnCount ((fireLoop W 0 s).2 ++
        [Effect.log (LogMsg.targets (fireLoop W 0 s).1.HomingTarget.length)]) =
        spawnCount (fireLoop W 0 s).2 := by
      unfold spawnCount
      rw [List.count_append]
      simp
    simp only [hs, hc]
    refine ⟨h1, h2, fun n => ?_⟩
    simp only [List.mem_append, not_or]
    exact ⟨fireLoop_no_projectileCountChanged W 0 s n, by simp⟩
  · have hs : shotEvents (clearOutlines W s.HomingTarget ++
        [Effect.log LogMsg.noHomingProjectileClass]) = [] := by
      have h := shotEvents_clearOutlines W s.HomingTarget
      unfold shotEvents at h ⊢
      rw [List.filter_append, h]
      simp [Effect.isShotEvent]
    have hc : spawnCount (clearOutlines W s.HomingTarget ++
        [Effect.log LogMsg.noHomingProjectileClass]) = 0 := by
      have h := spawnCount_clearOutlines W s.HomingTarget
      unfold spawnCount at h ⊢
      rw [List.count_append, h]
      simp
    simp only [hs, hc, shotsSpec, ammoAfterShots]
    refine ⟨trivial, trivial, fun n => ?_⟩
    simp only [List.mem_append, not_or]
    refine ⟨?_, by simp⟩
    induction s.HomingTarget with
    | nil => simp [clearOutlines]
    | cons t rest ih =>
      simp only [clearOutlines, List.mem_append, not_or]
      refine ⟨?_, ih⟩
      unfold DrawTargetOutline
      split <;> simp

/-- C10 (notification per mutation): every write to an ammo counter is followed by exactly one
notification on that counter's delegate carrying the value just written. `AddAmmo(0, N)` emits
exactly one `OnProjectileCountChanged` with the new `ProjectileAmmoCurrent` and `AddAmmo(1, N)`
exactly one `OnHomingProjectileCountChanged` with the new `HomingProjectileAmmoCurrent`, whether
or not the value changed; `Fire` with ammo calls the parent `Fire` and emits exactly one
`OnProjectileCountChanged` with the decremented count; the homing spawns and notifications of
`FireHomingProjectile` alternate, one notification per spawned projectile carrying the count
after that decrement, the last one being the final counter value; `AddAmmo` with any other type
changes nothing and emits nothing; `BeginPlay` notifies both reset counters. -/
theorem notification_per_mutation :
    (∀ (s : TankState) (N : Int),
      (AddAmmo s 0 N).2 = [Effect.projectileCountChanged (AddAmmo s 0 N).1.ProjectileAmmoCurrent] ∧
      (AddAmmo s 0 N).1.HomingProjectileAmmoCurrent = s.HomingProjectileAmmoCurrent) ∧
    (∀ (s : TankState) (N : Int),
      (AddAmmo s 1 N).2 =
        [Effect.homingProjectileCountChanged (AddAmmo s 1 N).1.HomingProjectileAmmoCurrent] ∧
      (AddAmmo s 1 N).1.ProjectileAmmoCurrent = s.ProjectileAmmoCurrent) ∧
    (∀ s : TankState, 0 < s.ProjectileAmmoCurrent →
      (Fire s).1.ProjectileAmmoCurrent
        = ProcessNewAmmo s.ProjectileAmmoCurrent (-1) s.ProjectileAmmoMax ∧
      (Fire s).1.HomingProjectileAmmoCurrent = s.HomingProjectileAmmoCurrent ∧
      (Fire s).2 =
        [Effect.superFire, Effect.projectileCountChanged (Fire s).1.ProjectileAmmoCurrent]) ∧
    (∀ (W : World) (s : TankState),
      shotEvents (FireHomingProjectile W s).2 =
        shotsSpec s.HomingProjectileAmmoCurrent s.HomingProjectileAmmoMax
          (spawnCount (FireHomingProjectile W s).2) ∧
      (FireHomingProjectile W s).1.HomingProjectileAmmoCurrent =
        ammoAfterShots s.HomingProjectileAmmoCurrent s.HomingProjectileAmmoMax
          (spawnCount (FireHomingProjectile W s).2) ∧
      (FireHomingProjectile W s).1.ProjectileAmmoCurrent = s.ProjectileAmmoCurrent ∧
      ∀ n, Effect.projectileCountChanged n ∉ (FireHomingProjectile W s).2) ∧
    (∀ (s : TankState) (AmmoType N : Int), AmmoType ≠ 0 → AmmoType ≠ 1 →
      AddAmmo s AmmoType N = (s, [])) ∧
    (∀ s : TankState,
      (BeginPlay s).2 =
        [Effect.projectileCountChanged (BeginPlay s).1.ProjectileAmmoCurrent,
         Effect.homingProjectileCountChanged (BeginPlay s).1.HomingProjectileAmmoCurrent]) := by
  refine ⟨?_, ?_, ?_, ?_, ?_, ?_⟩
  · intro s N
    simp [AddAmmo]
  · intro s N
    simp [AddAmmo]
  · intro s h
    simp [Fire, h]
  · intro W s
    obtain ⟨h1, h2, h3⟩ := FireHomingProjectile_shots W s
    exact ⟨h1, h2, (FireHomingProjectile_frame W s).2.2.1, h3⟩
  · intro s t N h0 h1
    simp [AddAmmo, h0, h1]
  · intro s
    simp [BeginPlay]

theorem notification_per_mutation_witness :
    ((Fire (tankWith 2 1 [])).1.ProjectileAmmoCurrent
        = ProcessNewAmmo (tankWith 2 1 []).ProjectileAmmoCurrent (-1)
            (tankWith 2 1 []).ProjectileAmmoMax ∧
      (Fire (tankWith 2 1 [])).1.HomingProjectileAmmoCurrent
        = (tankWith 2 1 []).HomingProjectileAmmoCurrent ∧
      (Fire (tankWith 2 1 [])).2 =
        [Effect.superFire,
         Effect.projectileCountChanged (Fire (tankWith 2 1 [])).1.ProjectileAmmoCurrent]) ∧
    AddAmmo (tankWith 2 1 []) 5 3 = (tankWith 2 1 [], []) :=
  ⟨notification_per_mutation.2.2.1 (tankWith 2 1 []) (by decide),
   notification_per_mutation.2.2.2.2.1 (tankWith 2 1 []) 5 3 (by decide) (by decide)⟩

/-! ## The enemy turret -/

theorem CheckFireCondition_of_alive {V F : Type} [Zero F] [LE F] [∀ a b : F, Decidable (a ≤ b)]
    (E : TurretWorld V F) (t : TurretState F) (player : TankState)
    (halive : GetIsPlayerAlive player = true) :
    APawnTurret.CheckFireCondition E t (some player) =
      if E.Dist E.PlayerLocation E.TurretLocation ≤ t.FireRange then [PawnEffect.fire] else [] := by
  simp [APawnTurret.CheckFireCondition, APawnTurret.ReturnDistanceToPlayer, halive]

theorem CheckFireCondition_of_dead {V F : Type} [Zero F] [LE F] [∀ a b : F, Decidable (a ≤ b)]
    (E : TurretWorld V F) (t : TurretState F) (player : TankState)
    (hdead : GetIsPlayerAlive player = false) :
    APawnTurret.CheckFireCondition E t (some player) = [PawnEffect.setActorTickEnabled false] := by
  simp [APawnTurret.CheckFireCondition, hdead]

/-- C11 (turret fire condition): the timer callback `CheckFireCondition` calls `Fire` exactly
when a player pawn reference exists, that player is alive and the distance between player and
turret is at most `FireRange`; with no player or a dead player it disables the turret's tick and
does nothing else; with a living player that is not within `FireRange` it does nothing at all. -/
theorem turret_fire_condition {V F : Type} [Zero F] [LE F] [∀ a b : F, Decidable (a ≤ b)]
    (E : TurretWorld V F) (t : TurretState F) (PlayerPawn : Option TankState) :
    (PawnEffect.fire ∈ APawnTurret.CheckFireCondition E t PlayerPawn ↔
      ∃ player, PlayerPawn = some player ∧ GetIsPlayerAlive player = true ∧
        E.Dist E.PlayerLocation E.TurretLocation ≤ t.FireRange) ∧
    ((PlayerPawn = none ∨ ∃ player, PlayerPawn = some player ∧ GetIsPlayerAlive player = false) →
      APawnTurret.CheckFireCondition E t PlayerPawn = [PawnEffect.setActorTickEnabled false]) ∧
    (∀ player, PlayerPawn = some player → GetIsPlayerAlive player = true →
      ¬ E.Dist E.PlayerLocation E.TurretLocation ≤ t.FireRange →
      APawnTurret.CheckFireCondition E t PlayerPawn = []) := by
  refine ⟨⟨?_, ?_⟩, ?_, ?_⟩
  · intro hfire
    cases PlayerPawn with
    | none => simp [APawnTurret.CheckFireCondition] at hfire
    | some player =>
      cases halive : GetIsPlayerAlive player with
      | false =>
        rw [CheckFireCondition_of_dead E t player halive] at hfire
        simp at hfire
      | true =>
        rw [CheckFireCondition_of_alive E t player halive] at hfire
        by_cases hd : E.Dist E.PlayerLocation E.TurretLocation ≤ t.FireRange
        · exact ⟨player, rfl, halive, hd⟩
        · simp [hd] at hfire
  · rintro ⟨player, rfl, halive, hd⟩
    rw [CheckFireCondition_of_alive E t player halive]
    simp [hd]
  · rintro (rfl | ⟨player, rfl, hdead⟩)
    · rfl
    · exact CheckFireCondition_of_dead E t player hdead
  · rintro player rfl halive hd
    rw [CheckFireCondition_of_alive E t player halive]
    simp [hd]

theorem turret_fire_condition_witness :
    APawnTurret.CheckFireCondition (lineWorld 300) sampleTurret
        (some { tankWith 1 1 [] with bIsPlayerAlive := false })
      = [PawnEffect.setActorTickEnabled false] ∧
    APawnTurret.CheckFireCondition (lineWorld 600) sampleTurret (some (tankWith 1 1 [])) = [] :=
  ⟨(turret_fire_condition (lineWorld 300) sampleTurret
      (some { tankWith 1 1 [] with bIsPlayerAlive := false })).2.1
      (Or.inr ⟨_, rfl, rfl⟩),
   (turret_fire_condition (lineWorld 600) sampleTurret (some (tankWith 1 1 []))).2.2
      (tankWith 1 1 []) rfl rfl (by decide)⟩

/-- C12 (aim and fire checks agree on the range threshold): with an existing, living player and
distances taken in a total order, the turret's `Tick` calls `RotateTurret` with the player's
location exactly when `CheckFireCondition` in the same state calls `Fire`, and both happen exactly
when the distance is at most `FireRange`. With no player reference `Tick` does not aim and
`CheckFireCondition` does not fire, although `ReturnDistanceToPlayer` then returns 0. -/
theorem aim_and_fire_agree {V F : Type} [Zero F] [LinearOrder F]
    (E : TurretWorld V F) (t : TurretState F) (player : TankState)
    (halive : GetIsPlayerAlive player = true) :
    (PawnEffect.rotateTurret E.PlayerLocation ∈ APawnTurret.Tick E t (some player) ↔
      PawnEffect.fire ∈ APawnTurret.CheckFireCondition E t (some player)) ∧
    (PawnEffect.fire ∈ APawnTurret.CheckFireCondition E t (some player) ↔
      E.Dist E.PlayerLocation E.TurretLocation ≤ t.FireRange) ∧
    (APawnTurret.Tick E t (some player) =
      if E.Dist E.PlayerLocation E.TurretLocation ≤ t.FireRange
      then [PawnEffect.rotateTurret E.PlayerLocation] else []) ∧
    (APawnTurret.Tick E t none = [] ∧
      PawnEffect.fire ∉ APawnTurret.CheckFireCondition E t none ∧
      APawnTurret.ReturnDistanceToPlayer E none = 0) := by
  have htick : APawnTurret.Tick E t (some player) =
      if E.Dist E.PlayerLocation E.TurretLocation ≤ t.FireRange
      then [PawnEffect.rotateTurret E.PlayerLocation] else [] := by
    by_cases hd : E.Dist E.PlayerLocation E.TurretLocation ≤ t.FireRange
    · simp [APawnTurret.Tick, APawnTurret.ReturnDistanceToPlayer, hd, not_lt.mpr hd]
    · simp [APawnTurret.Tick, APawnTurret.ReturnDistanceToPlayer, hd, not_le.mp hd]
  have hfire := CheckFireCondition_of_alive E t player halive
  refine ⟨?_, ?_, htick, ?_⟩
  · rw [htick, hfire]
    by_cases hd : E.Dist E.PlayerLocation E.TurretLocation ≤ t.FireRange <;> simp [hd]
  · rw [hfire]
    by_cases hd : E.Dist E.PlayerLocation E.TurretLocation ≤ t.FireRange <;> simp [hd]
  · refine ⟨?_, ?_, rfl⟩
    · simp [APawnTurret.Tick]
    · simp [APawnTurret.CheckFireCondition]

theorem aim_and_fire_agree_witness :
    (PawnEffect.rotateTurret (lineWorld 300).PlayerLocation
        ∈ APawnTurret.Tick (lineWorld 300) sampleTurret (some (tankWith 1 1 [])) ↔
      PawnEffect.fire
        ∈ APawnTurret.CheckFireCondition (lineWorld 300) sampleTurret (some (tankWith 1 1 []))) ∧
    (PawnEffect.fire
        ∈ APawnTurret.CheckFireCondition (lineWorld 300) sampleTurret (some (tankWith 1 1 [])) ↔
      (lineWorld 300).Dist (lineWorld 300).PlayerLocation (lineWorld 300).TurretLocation
        ≤ sampleTurret.FireRange) ∧
    (APawnTurret.Tick (lineWorld 300) sampleTurret (some (tankWith 1 1 [])) =
      if (lineWorld 300).Dist (lineWorld 300).PlayerLocation (lineWorld 300).TurretLocation
        ≤ sampleTurret.FireRange
      then [PawnEffect.rotateTurret (lineWorld 300).PlayerLocation] else []) ∧
    (APawnTurret.Tick (lineWorld 300) sampleTurret none = [] ∧
      PawnEffect.fire ∉ APawnTurret.CheckFireCondition (lineWorld 300) sampleTurret none ∧
      APawnTurret.ReturnDistanceToPlayer (lineWorld 300) none = 0) :=
  aim_and_fire_agree (lineWorld 300) sampleTurret (tankWith 1 1 []) rfl

theorem RandRange_range (Min Max : Int) (u : ℚ) (hle : Min ≤ Max) (hu : 0 ≤ u) :
    Min ≤ RandRange Min Max u ∧ RandRange Min Max u ≤ Max := by
  have hA : 0 < Max - Min + 1 := by omega
  have hfloor : 0 ≤ ⌊u * ((Max - Min + 1 : Int) : ℚ)⌋ := by
    apply Int.floor_nonneg.mpr
    apply mul_nonneg hu
    exact_mod_cast hA.le
  have hmin0 : 0 ≤ min ⌊u * ((Max - Min + 1 : Int) : ℚ)⌋ (Max - Min + 1 - 1) :=
    le_min hfloor (by omega)
  have hmin1 : min ⌊u * ((Max - Min + 1 : Int) : ℚ)⌋ (Max - Min + 1 - 1) ≤ Max - Min + 1 - 1 :=
    min_le_right _ _
  simp only [RandRange, RandHelper, hA, if_true]
  constructor <;> omega

theorem RandRange_attains (r : Int) (h0 : 0 ≤ r) (h10 : r ≤ 10) :
    RandRange 0 10 ((r : ℚ) / 11) = r := by
  have hfloor : ⌊(r : ℚ) / 11 * ((10 - 0 + 1 : Int) : ℚ)⌋ = r := by
    have : (r : ℚ) / 11 * ((10 - 0 + 1 : Int) : ℚ) = (r : ℚ) := by
      push_cast
      ring
    rw [this]
    exact Int.floor_intCast r
  simp only [RandRange, RandHelper, hfloor]
  have hmin : min r (10 - 0 + 1 - 1) = r := min_eq_left (by omega)
  simp [hmin, h10]

theorem TArrayGet_inRange {α : Type} (l : List α) (i : Int) (h0 : 0 ≤ i)
    (h1 : i < (l.length : Int)) : ∃ x, TArrayGet l i = some x := by
  have hlt : i.toNat < l.length := by omega
  refine ⟨l[i.toNat], ?_⟩
  simp [TArrayGet, h0, List.getElem?_eq_getElem hlt]

/-- C17 (turret destruction outcome): with the roll `r = RandRange(0, 10)`, which lies in
`0..10` and takes every value there, and any `PickUpClass` list, `HandleDestruction` of the turret
spawns a pick-up exactly when `r ≥ 5` and the list is non-empty, and the index it then uses lies
in `0..Num-1`, so the access is never out of bounds; it reaches `Destroy()` exactly when `r < 5`
or the list is non-empty; with `r ≥ 5` and an empty list it logs an error and returns without
destroying the turret. -/
theorem turret_destruction_outcome {V F : Type} (E : TurretWorld V F) (t : TurretState F)
    (u1 u2 : ℚ) (h1 : 0 ≤ u1) (h2 : 0 ≤ u2) :
    (0 ≤ RandRange 0 10 u1 ∧ RandRange 0 10 u1 ≤ 10) ∧
    (∀ r : Int, 0 ≤ r → r ≤ 10 → RandRange 0 10 ((r : ℚ) / 11) = r) ∧
    ((∃ PickUp loc,
        PawnEffect.spawnPickUp PickUp loc ∈ APawnTurret.HandleDestruction E t u1 u2) ↔
      (5 ≤ RandRange 0 10 u1 ∧ t.PickUpClass ≠ [])) ∧
    (5 ≤ RandRange 0 10 u1 → t.PickUpClass ≠ [] →
      0 ≤ RandRange 0 ((t.PickUpClass.length : Int) - 1) u2 ∧
      RandRange 0 ((t.PickUpClass.length : Int) - 1) u2 ≤ (t.PickUpClass.length : Int) - 1 ∧
      ∃ PickUp,
        TArrayGet t.PickUpClass (RandRange 0 ((t.PickUpClass.length : Int) - 1) u2)
          = some PickUp ∧
        APawnTurret.HandleDestruction E t u1 u2 =
          [PawnEffect.superHandleDestruction, PawnEffect.spawnPickUp PickUp E.TurretLocation,
           PawnEffect.destroy]) ∧
    PawnEffect.arrayIndexOutOfBounds ∉ APawnTurret.HandleDestruction E t u1 u2 ∧
    (PawnEffect.destroy ∈ APawnTurret.HandleDestruction E t u1 u2 ↔
      (RandRange 0 10 u1 < 5 ∨ t.PickUpClass ≠ [])) ∧
    (5 ≤ RandRange 0 10 u1 → t.PickUpClass = [] →
      APawnTurret.HandleDestruction E t u1 u2 =
        [PawnEffect.superHandleDestruction, PawnEffect.logNoPickUpClass]) := by
  have hlow : RandRange 0 10 u1 < 5 → APawnTurret.HandleDestruction E t u1 u2 =
      [PawnEffect.superHandleDestruction, PawnEffect.destroy] := by
    intro h
    simp [APawnTurret.HandleDestruction, not_le.mpr h]
  have hempty : 5 ≤ RandRange 0 10 u1 → t.PickUpClass = [] →
      APawnTurret.HandleDestruction E t u1 u2 =
        [PawnEffect.superHandleDestruction, PawnEffect.logNoPickUpClass] := by
    intro h hnil
    simp [APawnTurret.HandleDestruction, h, hnil]
  have hspawn : 5 ≤ RandRange 0 10 u1 → t.PickUpClass ≠ [] →
      0 ≤ RandRange 0 ((t.PickUpClass.length : Int) - 1) u2 ∧
      RandRange 0 ((t.PickUpClass.length : Int) - 1) u2 ≤ (t.PickUpClass.length : Int) - 1 ∧
      ∃ PickUp,
        TArrayGet t.PickUpClass (RandRange 0 ((t.PickUpClass.length : Int) - 1) u2)
          = some PickUp ∧
        APawnTurret.HandleDestruction E t u1 u2 =
          [PawnEffect.superHandleDestruction, PawnEffect.spawnPickUp PickUp E.TurretLocation,
           PawnEffect.destroy] := by
    intro h hne
    have hlen : 0 < t.PickUpClass.length := List.length_pos.mpr hne
    have hr := RandRange_range 0 ((t.PickUpClass.length : Int) - 1) u2 (by omega) h2
    obtain ⟨PickUp, hget⟩ := TArrayGet_inRange t.PickUpClass
      (RandRange 0 ((t.PickUpClass.length : Int) - 1) u2) hr.1 (by omega)
    refine ⟨hr.1, hr.2, PickUp, hget, ?_⟩
    have hlen0 : t.PickUpClass.length ≠ 0 := by omega
    simp only [APawnTurret.HandleDestruction, h, if_true, hlen0, ne_eq, not_false_eq_true, hget]
  refine ⟨RandRange_range 0 10 u1 (by decide) h1, RandRange_attains, ⟨?_, ?_⟩, hspawn, ?_,
    ⟨?_, ?_⟩, hempty⟩
  · rintro ⟨PickUp, loc, hmem⟩
    by_cases h : 5 ≤ RandRange 0 10 u1
    · refine ⟨h, fun hnil => ?_⟩
      rw [hempty h hnil] at hmem
      simp at hmem
    · rw [hlow (not_le.mp h)] at hmem
      simp at hmem
  · rintro ⟨h, hne⟩
    obtain ⟨_, _, PickUp, _, hrun⟩ := hspawn h hne
    exact ⟨PickUp, E.TurretLocation, by simp [hrun]⟩
  · by_cases h : 5 ≤ RandRange 0 10 u1
    · by_cases hne : t.PickUpClass = []
      · simp [hempty h hne]
      · obtain ⟨_, _, PickUp, _, hrun⟩ := hspawn h hne
        simp [hrun]
    · simp [hlow (not_le.mp h)]
  · intro hmem
    by_cases h : 5 ≤ RandRange 0 10 u1
    · refine Or.inr (fun hnil => ?_)
      rw [hempty h hnil] at hmem
      simp at hmem
    · exact Or.inl (not_le.mp h)
  · rintro (h | hne)
    · simp [hlow h]
    · by_cases h : 5 ≤ RandRange 0 10 u1
      · obtain ⟨_, _, PickUp, _, hrun⟩ := hspawn h hne
        simp [hrun]
      · simp [hlow (not_le.mp h)]

theorem turret_destruction_outcome_witness :
    PawnEffect.arrayIndexOutOfBounds
      ∉ APawnTurret.HandleDestruction (lineWorld 300) sampleTurret (1 / 2) (3 / 4) :=
  (turret_destruction_outcome (lineWorld 300) sampleTurret (1 / 2) (3 / 4)
    (by norm_num) (by norm_num)).2.2.2.2.1

/-! ## Locomotion -/

theorem Move_miss {R Q : Type} (E : MoveEngine R Q) (m : MotionState R Q) :
    (Move E m none).1 = { m with bIsGrounded := false } := by
  simp [Move]

theorem Move_hit {R Q : Type} (E : MoveEngine R Q) (m : MotionState R Q) (n : FVector) :
    (Move E m (some n)).1 =
      { m with
        bIsGrounded := true
        BaseMesh := E.MakeRotFromZX n (E.GetForwardVector m.BaseMesh) } := by
  simp [Move]

theorem Rotate_of_idle {R Q : Type} (E : MoveEngine R Q) (m : MotionState R Q)
    (h : m.MoveDirection = FVector.ZeroVector ∨ m.bIsGrounded = false) :
    (Rotate E m).BaseMesh = m.BaseMesh ∧ (Rotate E m).TurretMesh = m.TurretMesh := by
  have hcond : ¬ (m.MoveDirection ≠ FVector.ZeroVector ∧ m.bIsGrounded = true) := by
    rintro ⟨h1, h2⟩
    rcases h with h | h
    · exact h1 h
    · rw [h] at h2
      exact Bool.noConfusion h2
  unfold Rotate
  rw [if_neg hcond]
  split_ifs <;> exact ⟨rfl, rfl⟩

/-- C13, as stated, fails: a tank that was grounded by the previous tick and is driving has its
body turned by `Rotate` (here from yaw 0 to yaw 5) in a tick whose ground raycast misses. -/
theorem ground_miss_counterexample :
    (drivingTank { X := 1, Y := 0, Z := 0 }).BaseMesh = 0 ∧
    (Tick (yawEngine { X := 1, Y := 0, Z := 0 }) (drivingTank { X := 1, Y := 0, Z := 0 })
      none).1.BaseMesh = 5 := by
  refine ⟨rfl, ?_⟩
  norm_num [Tick, Move, Rotate, yawEngine, drivingTank, FVector.ZeroVector]

/-- C13 (ground miss preserves orientation, amended): in a tick whose ground raycast reports no
hit, `Move` leaves the body orientation as it found it, so the orientation after the tick is the
one `Rotate` produced; it equals the orientation before the tick whenever `MoveDirection` is zero
or the tank was not grounded by the previous raycast. `Move` modifies the body orientation only
if the ground raycast of that tick hits. -/
theorem ground_miss_preserves_orientation {R Q : Type} (E : MoveEngine R Q)
    (m : MotionState R Q) :
    (Move E m none).1.BaseMesh = m.BaseMesh ∧
    (Tick E m none).1.BaseMesh = (Rotate E m).BaseMesh ∧
    ((m.MoveDirection = FVector.ZeroVector ∨ m.bIsGrounded = false) →
      (Tick E m none).1.BaseMesh = m.BaseMesh) ∧
    (∀ Hit, (Move E m Hit).1.BaseMesh ≠ m.BaseMesh → ∃ ImpactNormal, Hit = some ImpactNormal) ∧
    (∀ Hit, (Tick E m Hit).1.BaseMesh ≠ (Rotate E m).BaseMesh →
      ∃ ImpactNormal, Hit = some ImpactNormal) := by
  have hmove : ∀ m1 : MotionState R Q, (Move E m1 none).1.BaseMesh = m1.BaseMesh := by
    intro m1
    rw [Move_miss]
  refine ⟨hmove m, hmove _, ?_, ?_, ?_⟩
  · intro h
    unfold Tick
    rw [hmove]
    exact (Rotate_of_idle E m h).1
  · intro Hit hne
    cases Hit with
    | none => exact absurd (hmove m) hne
    | some n => exact ⟨n, rfl⟩
  · intro Hit hne
    cases Hit with
    | none => exact absurd (hmove _) hne
    | some n => exact ⟨n, rfl⟩

theorem ground_miss_preserves_orientation_witness :
    (Tick (yawEngine { X := 1, Y := 0, Z := 0 })
        { drivingTank { X := 1, Y := 0, Z := 0 } with bIsGrounded := false } none).1.BaseMesh
      = ({ drivingTank { X := 1, Y := 0, Z := 0 } with bIsGrounded := false } :
          MotionState ℚ ℚ).BaseMesh :=
  (ground_miss_preserves_orientation (yawEngine { X := 1, Y := 0, Z := 0 })
    { drivingTank { X := 1, Y := 0, Z := 0 } with bIsGrounded := false }).2.2.1 (Or.inr rfl)

theorem Rotate_of_positive_x {R Q : Type} (E : MoveEngine R Q) (m : MotionState R Q)
    (hground : m.bIsGrounded = true) (hx : 0 < m.MoveDirection.X) :
    (Rotate E m).BaseMesh = E.AddLocalRotation m.BaseMesh m.RotationDirection ∧
    (Rotate E m).TurretMesh = E.AddLocalRotation m.TurretMesh m.CounterRotation := by
  have hne : m.MoveDirection ≠ FVector.ZeroVector := by
    intro h
    rw [h] at hx
    exact lt_irrefl _ hx
  unfold Rotate
  rw [if_pos ⟨hne, hground⟩]
  by_cases hp : m.ParticleTrail.bWasDeactivated = true ∧ m.ParticleTrail.bWasActive = false
  · simp only [hp, and_self, if_true]
    rw [if_pos (by simpa using hx)]
    exact ⟨rfl, rfl⟩
  · simp only [if_neg hp]
    rw [if_pos (by simpa using hx)]
    exact ⟨rfl, rfl⟩

theorem Rotate_of_negative_x {R Q : Type} (E : MoveEngine R Q) (m : MotionState R Q)
    (hground : m.bIsGrounded = true) (hx : m.MoveDirection.X < 0) :
    (Rotate E m).BaseMesh
      = E.AddLocalRotation m.BaseMesh (E.QuatScale m.RotationDirection (-1)) ∧
    (Rotate E m).TurretMesh
      = E.AddLocalRotation m.TurretMesh (E.QuatScale m.CounterRotation (-1)) := by
  have hne : m.MoveDirection ≠ FVector.ZeroVector := by
    intro h
    rw [h] at hx
    exact lt_irrefl _ hx
  have hnot : ¬ m.MoveDirection.X > 0 := not_lt.mpr hx.le
  unfold Rotate
  rw [if_pos ⟨hne, hground⟩]
  by_cases hp : m.ParticleTrail.bWasDeactivated = true ∧ m.ParticleTrail.bWasActive = false
  · simp only [hp, and_self, if_true]
    rw [if_neg (by simpa using hx.le)]
    exact ⟨rfl, rfl⟩
  · simp only [if_neg hp]
    rw [if_neg (by simpa using hx.le)]
    exact ⟨rfl, rfl⟩

/-- C14 fails on the code: `Rotate` tests the world-space component `MoveDirection.X`, not the
sign of the move input. For a grounded tank whose body faces a direction with negative world `X`
(positive move speed and delta time), driving in reverse gives `MoveDirection.X > 0` and `Rotate`
passes the un-negated `RotationDirection` and `CounterRotation` to `AddLocalRotation`, exactly
what it does when driving forward while facing positive `X`; driving forward gives
`MoveDirection.X < 0` and `Rotate` passes `RotationDirection * -1` and `CounterRotation * -1`. -/
theorem rotation_sign_follows_world_x {R Q : Type} (E : MoveEngine R Q) (m : MotionState R Q)
    (value dt : ℚ) (hfwd : (E.GetForwardVector m.BaseMesh).X < 0)
    (hspeed : 0 < m.MoveSpeed) (hdt : 0 < dt) (hground : m.bIsGrounded = true) :
    (value < 0 →
      0 < (CalculateMoveInput E m value dt).MoveDirection.X ∧
      (Rotate E (CalculateMoveInput E m value dt)).BaseMesh
        = E.AddLocalRotation m.BaseMesh m.RotationDirection ∧
      (Rotate E (CalculateMoveInput E m value dt)).TurretMesh
        = E.AddLocalRotation m.TurretMesh m.CounterRotation) ∧
    (0 < value →
      (CalculateMoveInput E m value dt).MoveDirection.X < 0 ∧
      (Rotate E (CalculateMoveInput E m value dt)).BaseMesh
        = E.AddLocalRotation m.BaseMesh (E.QuatScale m.RotationDirection (-1)) ∧
      (Rotate E (CalculateMoveInput E m value dt)).TurretMesh
        = E.AddLocalRotation m.TurretMesh (E.QuatScale m.CounterRotation (-1))) := by
  have hX : (CalculateMoveInput E m value dt).MoveDirection.X
      = value * (E.GetForwardVector m.BaseMesh).X * m.MoveSpeed * dt := by
    simp [CalculateMoveInput, FVector.scale, FVector.scaleLeft]
  constructor
  · intro hval
    have hpos : 0 < (CalculateMoveInput E m value dt).MoveDirection.X := by
      rw [hX]
      exact mul_pos (mul_pos (mul_pos_of_neg_of_neg hval hfwd) hspeed) hdt
    exact ⟨hpos, Rotate_of_positive_x E (CalculateMoveInput E m value dt) hground hpos⟩
  · intro hval
    have hneg : (CalculateMoveInput E m value dt).MoveDirection.X < 0 := by
      rw [hX]
      exact mul_neg_of_neg_of_pos
        (mul_neg_of_neg_of_pos (mul_neg_of_pos_of_neg hval hfwd) hspeed) hdt
    exact ⟨hneg, Rotate_of_negative_x E (CalculateMoveInput E m value dt) hground hneg⟩

theorem rotation_sign_follows_world_x_witness :
    0 < (CalculateMoveInput (yawEngine { X := -1, Y := 0, Z := 0 })
          (drivingTank FVector.ZeroVector) (-1) (1 / 50)).MoveDirection.X ∧
    (Rotate (yawEngine { X := -1, Y := 0, Z := 0 })
        (CalculateMoveInput (yawEngine { X := -1, Y := 0, Z := 0 })
          (drivingTank FVector.ZeroVector) (-1) (1 / 50))).BaseMesh
      = (yawEngine { X := -1, Y := 0, Z := 0 }).AddLocalRotation
          (drivingTank FVector.ZeroVector).BaseMesh
          (drivingTank FVector.ZeroVector).RotationDirection ∧
    (Rotate (yawEngine { X := -1, Y := 0, Z := 0 })
        (CalculateMoveInput (yawEngine { X := -1, Y := 0, Z := 0 })
          (drivingTank FVector.ZeroVector) (-1) (1 / 50))).TurretMesh
      = (yawEngine { X := -1, Y := 0, Z := 0 }).AddLocalRotation
          (drivingTank FVector.ZeroVector).TurretMesh
          (drivingTank FVector.ZeroVector).CounterRotation :=
  (rotation_sign_follows_world_x (yawEngine { X := -1, Y := 0, Z := 0 })
    (drivingTank FVector.ZeroVector) (-1) (1 / 50)
    (by norm_num [yawEngine]) (by norm_num [drivingTank]) (by norm_num) rfl).1 (by norm_num)

/-! ## Destruction of the tank -/

theorem run_bIsPlayerAlive (W : World) (s : TankState) (op : TankOp) :
    (TankOp.run W s op).1.bIsPlayerAlive = s.bIsPlayerAlive := by
  cases op with
  | addAmmo t n =>
    simp only [TankOp.run, AddAmmo]
    split_ifs <;> rfl
  | fire =>
    simp only [TankOp.run, Fire]
    split_ifs <;> rfl
  | targetHomingProjectile trace =>
    exact (TargetHomingProjectile_frame W s trace).2.2.2.2.2
  | fireHomingProjectile =>
    exact (FireHomingProjectile_frame W s).2.2.2.2

theorem TankCall_run_dead {R Q : Type} (W : World) (E : MoveEngine R Q)
    (x : TankState × MotionState R Q) (c : TankCall) (h : x.1.bIsPlayerAlive = false) :
    (TankCall.run W E x c).1.bIsPlayerAlive = false := by
  obtain ⟨s, m⟩ := x
  cases c with
  | op o =>
    simp only [TankCall.run]
    rw [run_bIsPlayerAlive]
    exact h
  | tick Hit => exact h
  | beginPlay => exact h
  | handleDestruction => rfl

theorem runCalls_dead {R Q : Type} (W : World) (E : MoveEngine R Q) (calls : List TankCall)
    (x : TankState × MotionState R Q) (h : x.1.bIsPlayerAlive = false) :
    (runCalls W E x calls).1.bIsPlayerAlive = false := by
  induction calls generalizing x with
  | nil => exact h
  | cons c rest ih =>
    simp only [runCalls]
    exact ih _ (TankCall_run_dead W E x c h)

/-- C16 (once the tank is destroyed the turret never fires again): `HandleDestruction` of the
tank sets `bIsPlayerAlive` to false, and no later `AddAmmo`, `Fire`, `TargetHomingProjectile`,
`FireHomingProjectile`, `Tick`, `BeginPlay` or repeated `HandleDestruction` sets it back; so in
every state reached afterwards `GetIsPlayerAlive` returns false, and `CheckFireCondition` of a
turret whose `PlayerPawn` is that tank disables the turret's tick and does not call `Fire`. -/
theorem destroyed_tank_is_never_fired_at {R Q V F : Type} [Zero F] [LE F]
    [∀ a b : F, Decidable (a ≤ b)] (W : World) (E : MoveEngine R Q)
    (s : TankState) (m : MotionState R Q) (calls : List TankCall)
    (T : TurretWorld V F) (t : TurretState F) :
    (HandleDestruction V s).1.bIsPlayerAlive = false ∧
    GetIsPlayerAlive (runCalls W E ((HandleDestruction V s).1, m) calls).1 = false ∧
    APawnTurret.CheckFireCondition T t
        (some (runCalls W E ((HandleDestruction V s).1, m) calls).1)
      = [PawnEffect.setActorTickEnabled false] ∧
    PawnEffect.fire ∉ APawnTurret.CheckFireCondition T t
        (some (runCalls W E ((HandleDestruction V s).1, m) calls).1) := by
  have hdead : GetIsPlayerAlive (runCalls W E ((HandleDestruction V s).1, m) calls).1 = false :=
    runCalls_dead W E calls _ rfl
  have hcheck := CheckFireCondition_of_dead T t _ hdead
  refine ⟨rfl, hdead, hcheck, ?_⟩
  rw [hcheck]
  simp

/-! ## The exact effect of the firing loop -/

theorem firedTargets_append (a b : List Effect) :
    firedTargets (a ++ b) = firedTargets a ++ firedTargets b := by
  induction a with
  | nil => rfl
  | cons e rest ih =>
    cases e <;> simp [firedTargets, ih]

theorem firedTargets_DrawTargetOutline (W : World) (t : Actor) (b : Bool) :
    firedTargets (DrawTargetOutline W t b) = [] := by
  unfold DrawTargetOutline
  split <;> rfl

theorem firedTargets_fireBodyEffects (W : World) (s : TankState) (index : Nat) (target : Actor) :
    firedTargets (fireBodyEffects W s index target) = [target] := by
  simp [fireBodyEffects, firedTargets_append, firedTargets_DrawTargetOutline, firedTargets]

theorem ammoAfterShots_eq (cur max : Int) (shots : Nat) (h0 : 0 ≤ cur) (h1 : cur ≤ max)
    (h2 : max ≤ 2147483647) :
    ammoAfterShots cur max shots = Max.max (cur - (shots : Int)) 0 := by
  induction shots generalizing cur with
  | zero => simp [ammoAfterShots, h0]
  | succ k ih =>
    simp only [ammoAfterShots]
    by_cases hpos : 0 < cur
    · rw [ProcessNewAmmo_decrement cur max hpos h1 h2, ih (cur - 1) (by omega) (by omega)]
      push_cast
      congr 1
      ring
    · have hz : cur = 0 := by omega
      have hP : ProcessNewAmmo cur (-1) max = 0 := by
        subst hz
        simp only [ProcessNewAmmo, wrapInt32, Clamp]
        split_ifs <;> omega
      rw [hP, ih 0 (le_refl _) (by omega), hz]
      push_cast
      rw [max_eq_right (by omega), max_eq_right (by omega)]

theorem getElem?_append_cons_length {α : Type} (A : List α) (b : α) (B : List α) :
    (A ++ b :: B)[A.length]? = some b := by
  rw [List.getElem?_append_right (le_refl _)]
  simp

theorem fireLoop_exact (W : World) (index : Nat) (s : TankState) :
    ∀ A B : List Actor, s.HomingTarget = A ++ B → A.length = index →
      (fireLoop W index s).1.HomingTarget = A ++ (B.drop ((B.length + 1) / 2)).reverse ∧
      firedTargets (fireLoop W index s).2 = B.take ((B.length + 1) / 2) ∧
      spawnCount (fireLoop W index s).2 = (B.length + 1) / 2 := by
  induction index, s using fireLoop.induct W with
  | case1 index s h ih =>
    intro A B hAB hA
    rw [fireLoop]
    simp only [h, dite_true]
    cases B with
    | nil =>
      rw [hAB] at h
      simp at h
      omega
    | cons b B1 =>
      have htarget : s.HomingTarget.get ⟨index, h⟩ = b := by
        have h1 : s.HomingTarget[index]? = some b := by
          rw [hAB, ← hA]
          exact getElem?_append_cons_length A b B1
        obtain ⟨_, h2⟩ := List.getElem?_eq_some.mp h1
        rw [List.get_eq_getElem]
        exact h2
      rw [htarget, firedTargets_append, firedTargets_fireBodyEffects]
      have hcount : spawnCount (fireBodyEffects W s index b ++
          (fireLoop W (index + 1) (fireBodyState s index)).2) =
          spawnCount (fireLoop W (index + 1) (fireBodyState s index)).2 + 1 := by
        have h1 := spawnCount_fireBodyEffects W s index b
        unfold spawnCount at h1 ⊢
        rw [List.count_append, h1]
        omega
      rw [hcount]
      rcases List.eq_nil_or_concat B1 with hB1 | ⟨B2, c, hB1⟩
      · subst hB1
        have hlist : (fireBodyState s index).HomingTarget = A := by
          simp only [fireBodyState, hAB]
          rw [RemoveAtSwap_concat, ← hA]
          simp
        have hstop : ¬ index + 1 < (fireBodyState s index).HomingTarget.length := by
          rw [hlist]
          omega
        rw [fireLoop]
        simp only [hstop, dite_false]
        rw [hlist]
        simp [firedTargets, spawnCount]
      · rw [List.concat_eq_append] at hB1
        subst hB1
        have hlist : (fireBodyState s index).HomingTarget = (A ++ [c]) ++ B2 := by
          simp only [fireBodyState, hAB]
          have hsplit : A ++ b :: (B2 ++ [c]) = (A ++ b :: B2) ++ [c] := by simp
          rw [hsplit, RemoveAtSwap_concat, ← hA]
          simp
        obtain ⟨i1, i2, i3⟩ := ih (A ++ [c]) B2 hlist (by simp [hA])
        have hm : (B2.length + 1) / 2 ≤ B2.length := by omega
        have hhalf : ((b :: (B2 ++ [c])).length + 1) / 2 = (B2.length + 1) / 2 + 1 := by
          simp only [List.length_cons, List.length_append, List.length_nil]
          omega
        rw [i1, i2, i3, hhalf]
        refine ⟨?_, ?_, rfl⟩
        · simp [List.drop_append_of_le_length hm]
        · simp [List.take_append_of_le_length hm]
  | case2 index s h =>
    intro A B hAB hA
    rw [fireLoop]
    simp only [h, dite_false]
    have hB : B = [] := by
      rw [hAB] at h
      simp only [List.length_append] at h
      have : B.length = 0 := by omega
      exact List.length_eq_zero.mp this
    subst hB
    simp [hAB, firedTargets, spawnCount]

/-- C15 (exact effect of the firing loop): with a homing projectile class set and a list of
`n ≥ 1` targets `[t0, .., t(n-1)]`, `FireHomingProjectile` spawns exactly `ceil(n/2)`
projectiles, aimed at `t0, .., t(ceil(n/2)-1)` in that order; afterwards `HomingTarget` holds
exactly the `floor(n/2)` targets that were last in the list, in reversed order; and for a counter
within `0 .. max` (with `max` an `int`) `HomingProjectileAmmoCurrent` ends as
`max(old - ceil(n/2), 0)`. -/
theorem homing_fire_exact_effect (W : World) (s : TankState)
    (hclass : s.HomingProjectileClass = true) (hn : 1 ≤ s.HomingTarget.length) :
    spawnCount (FireHomingProjectile W s).2 = (s.HomingTarget.length + 1) / 2 ∧
    firedTargets (FireHomingProjectile W s).2
      = s.HomingTarget.take ((s.HomingTarget.length + 1) / 2) ∧
    (FireHomingProjectile W s).1.HomingTarget
      = (s.HomingTarget.drop ((s.HomingTarget.length + 1) / 2)).reverse ∧
    (FireHomingProjectile W s).1.HomingTarget.length = s.HomingTarget.length / 2 ∧
    (0 ≤ s.HomingProjectileAmmoCurrent →
      s.HomingProjectileAmmoCurrent ≤ s.HomingProjectileAmmoMax →
      s.HomingProjectileAmmoMax ≤ 2147483647 →
      (FireHomingProjectile W s).1.HomingProjectileAmmoCurrent
        = Max.max (s.HomingProjectileAmmoCurrent
            - (((s.HomingTarget.length + 1) / 2 : Nat) : Int)) 0) := by
  obtain ⟨e1, e2, e3⟩ := fireLoop_exact W 0 s [] s.HomingTarget rfl rfl
  have hne : ¬ s.HomingTarget.length = 0 := by omega
  have hrun : FireHomingProjectile W s =
      ((fireLoop W 0 s).1,
        (fireLoop W 0 s).2 ++
          [Effect.log (LogMsg.targets (fireLoop W 0 s).1.HomingTarget.length)]) := by
    simp [FireHomingProjectile, hne, hclass]
  have hcount : spawnCount (FireHomingProjectile W s).2 = (s.HomingTarget.length + 1) / 2 := by
    rw [hrun, ← e3]
    unfold spawnCount
    rw [List.count_append]
    simp
  refine ⟨hcount, ?_, ?_, ?_, ?_⟩
  · rw [hrun, ← e2]
    simp [firedTargets_append, firedTargets]
  · rw [hrun]
    simpa using e1
  · rw [hrun]
    simp only [e1, List.nil_append, List.length_reverse, List.length_drop]
    omega
  · intro h0 h1 h2
    rw [(FireHomingProjectile_shots W s).2.1, hcount]
    exact ammoAfterShots_eq _ _ _ h0 h1 h2

theorem homing_fire_exact_effect_witness :
    spawnCount (FireHomingProjectile pawnWorld (tankWith 6 4 [7, 8, 9])).2
      = ((tankWith 6 4 [7, 8, 9]).HomingTarget.length + 1) / 2 ∧
    firedTargets (FireHomingProjectile pawnWorld (tankWith 6 4 [7, 8, 9])).2
      = (tankWith 6 4 [7, 8, 9]).HomingTarget.take
          (((tankWith 6 4 [7, 8, 9]).HomingTarget.length + 1) / 2) ∧
    (FireHomingProjectile pawnWorld (tankWith 6 4 [7, 8, 9])).1.HomingTarget
      = ((tankWith 6 4 [7, 8, 9]).HomingTarget.drop
          (((tankWith 6 4 [7, 8, 9]).HomingTarget.length + 1) / 2)).reverse ∧
    (FireHomingProjectile pawnWorld (tankWith 6 4 [7, 8, 9])).1.HomingTarget.length
      = (tankWith 6 4 [7, 8, 9]).HomingTarget.length / 2 ∧
    (FireHomingProjectile pawnWorld (tankWith 6 4 [7, 8, 9])).1.HomingProjectileAmmoCurrent
      = Max.max ((tankWith 6 4 [7, 8, 9]).HomingProjectileAmmoCurrent
          - ((((tankWith 6 4 [7, 8, 9]).HomingTarget.length + 1) / 2 : Nat) : Int)) 0 :=
  ⟨(homing_fire_exact_effect pawnWorld (tankWith 6 4 [7, 8, 9]) rfl (by decide)).1,
   (homing_fire_exact_effect pawnWorld (tankWith 6 4 [7, 8, 9]) rfl (by decide)).2.1,
   (homing_fire_exact_effect pawnWorld (tankWith 6 4 [7, 8, 9]) rfl (by decide)).2.2.1,
   (homing_fire_exact_effect pawnWorld (tankWith 6 4 [7, 8, 9]) rfl (by decide)).2.2.2.1,
   (homing_fire_exact_effect pawnWorld (tankWith 6 4 [7, 8, 9]) rfl (by decide)).2.2.2.2
     (by decide) (by decide) (by decide)⟩

end CrazyTank
